import Mathlib

/-!
Verification of the transaction authoring engine of dcrlibwallet
(`ParseOutputsAndChangeDestination`, `constructCustomTransaction` and their
helpers), shallowly embedded in Lean 4.

Amounts are `Int` (Go `int64`; all reachable arithmetic stays far below the
64-bit bound, so no wrap-around modelling is needed: the largest products are
bounded by `MaxAmount * 1000 < 2^61`).  Sizes are `Nat`.  Fallible Go
functions returning `(T, error)` become `Except AuthorError T`.  The
cryptographic randomness consumed by `txauthor.RandomizeOutputPosition` is
injected as a stream of naturals, one per randomized change output.
-/

namespace Dcrlibwallet

/-- A transaction destination, from the repository's `TransactionDestination`
struct: an address, an amount in atoms, and the send-max flag. -/
structure TransactionDestination where
  Address : String
  AtomAmount : Int
  SendMax : Bool
  deriving Repr, DecidableEq

/-- A transaction output (`wire.TxOut`): value in atoms and the pkScript,
modelled as its byte list. -/
structure TxOut where
  Value : Int
  PkScript : List Nat
  deriving Repr, DecidableEq

instance : Inhabited TxOut := ⟨⟨0, []⟩⟩

/-- A transaction input (`wire.TxIn`): the value consumed and the signature
script placeholder. -/
structure TxIn where
  ValueIn : Int
  SignatureScript : List Nat
  deriving Repr, DecidableEq

/-- The part of `txauthor.AuthoredTx` populated by `constructCustomTransaction`:
total input amount, estimated signed serialize size, and the wire transaction's
input and output lists. -/
structure AuthoredTx where
  TotalInput : Int
  EstimatedSignedSerializeSize : Nat
  TxIn : List TxIn
  TxOut : List TxOut
  deriving Repr, DecidableEq

/-- The distinct error exits of the authoring code path. -/
inductive AuthorError where
  /-- "invalid amount" (`errors.E(errors.Invalid, ...)`) -/
  | invalidAmount
  /-- "cannot send max amount to multiple recipients" -/
  | multipleMaxAmountRecipients
  /-- "make tx output error: %v" (address failed to decode in the parser) -/
  | makeTxOutputError
  /-- "no change is generated when sending max amount, change destinations
  must not be provided" -/
  | conflictingChange
  /-- "error generating internal address to use as change: %s" -/
  | changeAddressGenError
  /-- "change address error: %v" (change script / change output creation) -/
  | changeAddressError
  /-- "total send amount plus tx fee is higher than the total input amount
  by %s"; carries the shortfall. -/
  | insufficientFunds (shortfall : Int)
  /-- "script size exceed maximum bytes pushable to the stack" -/
  | scriptTooLarge
  /-- "total amount allocated to change addresses (%s) is higher than actual
  change amount for transaction (%s)" -/
  | changeAllocationExceedsAvailable (allocated available : Int)
  deriving Repr, DecidableEq

/-- Equality of `Except` results is decidable when it is on both sides, so
concrete runs of the authoring code can be checked by evaluation. -/
instance {ε α : Type} [DecidableEq ε] [DecidableEq α] : DecidableEq (Except ε α) := fun a b =>
  match a, b with
  | .error e, .error e' =>
    if h : e = e' then .isTrue (by rw [h]) else .isFalse (by simp [h])
  | .ok x, .ok y =>
    if h : x = y then .isTrue (by rw [h]) else .isFalse (by simp [h])
  | .error _, .ok _ => .isFalse (by simp)
  | .ok _, .error _ => .isFalse (by simp)

/-- `dcrutil.MaxAmount`: 21e6 coins in atoms. -/
def MaxAmount : Int := 2100000000000000

/-- `txrules.DefaultRelayFeePerKb` in atoms per kB. -/
def DefaultRelayFeePerKb : Int := 10000

/-- `txsizes.RedeemP2PKHSigScriptSize` = 1 + 73 + 1 + 33. -/
def RedeemP2PKHSigScriptSize : Nat := 108

/-- `txscript.MaxScriptElementSize`: maximum bytes pushable to the stack. -/
def MaxScriptElementSize : Nat := 2048

/-- `wire.VarIntSerializeSize`. -/
def varIntSerializeSize (v : Nat) : Nat :=
  if v < 0xfd then 1
  else if v ≤ 0xffff then 3
  else if v ≤ 0xffffffff then 5
  else 9

/-- `txsizes.EstimateInputSize`: 32 (prev hash) + 4 (prev index) + 1 (tree)
+ 8 (value) + 4 (block height) + 4 (block index) + 4 (sequence)
+ varint-prefixed signature script of the given size. -/
def EstimateInputSize (scriptSize : Nat) : Nat :=
  57 + varIntSerializeSize scriptSize + scriptSize

/-- `txsizes.EstimateOutputSize`: 8 (value) + 2 (script version)
+ varint-prefixed script of the given size. -/
def EstimateOutputSize (scriptSize : Nat) : Nat :=
  8 + 2 + varIntSerializeSize scriptSize + scriptSize

/-- Serialized size of one `wire.TxOut` (`TxOut.SerializeSize`). -/
def txOutSerializeSize (txOut : TxOut) : Nat :=
  8 + 2 + varIntSerializeSize txOut.PkScript.length + txOut.PkScript.length

/-- `h.SumOutputSerializeSizes`. -/
def sumOutputSerializeSizes (txOuts : List TxOut) : Nat :=
  (txOuts.map txOutSerializeSize).sum

/-- `txsizes.EstimateSerializeSize`: worst-case signed serialize size for a
transaction with the given input script sizes and outputs, plus one extra
change output of script size `changeScriptSize` when that is positive. -/
def EstimateSerializeSize (scriptSizes : List Nat) (txOuts : List TxOut)
    (changeScriptSize : Nat) : Nat :=
  let txInsSize := (scriptSizes.map EstimateInputSize).sum
  let inputCount := scriptSizes.length
  let outputCount := txOuts.length + (if 0 < changeScriptSize then 1 else 0)
  let changeSize := if 0 < changeScriptSize then EstimateOutputSize changeScriptSize else 0
  12 + 2 * varIntSerializeSize inputCount + varIntSerializeSize outputCount +
    txInsSize + sumOutputSerializeSizes txOuts + changeSize

/-- `txrules.FeeForSerializeSize`: linear fee with a floor of one relay fee
for nonzero rates and a clamp to `MaxAmount`.  Go's `int64` division
truncates toward zero, which is `Int.tdiv`. -/
def FeeForSerializeSize (relayFeePerKb : Int) (txSerializeSize : Nat) : Int :=
  let fee := Int.tdiv (relayFeePerKb * (txSerializeSize : Int)) 1000
  let fee := if fee = 0 ∧ 0 < relayFeePerKb then relayFeePerKb else fee
  if fee < 0 ∨ MaxAmount < fee then MaxAmount else fee

/-- `txrules.IsDustAmount`: an output is dust when its value divided by three
times the cost to redeem it (its own serialized size plus 165 bytes of
redeeming input) falls below the relay fee rate. -/
def IsDustAmount (amount : Int) (scriptSize : Nat) (relayFeePerKb : Int) : Bool :=
  let totalSize : Int := 8 + 2 + (varIntSerializeSize scriptSize : Int) + (scriptSize : Int) + 165
  Int.tdiv (amount * 1000) (3 * totalSize) < relayFeePerKb

/-- Modelled from the spec: `txhelper.MakeTxOutput` (the repository's
`txhelper` package is not among the supplied sources).  Per §3/§4.4 of the
spec it produces a `TxOut` carrying exactly the stated amount and the locking
script of the destination address, failing when the address does not decode.
Address decoding is abstracted as the injected map `addrScript`. -/
def MakeTxOutput (addrScript : String → Option (List Nat)) (address : String)
    (amountInAtom : Int) : Option TxOut :=
  match addrScript address with
  | none => none
  | some script => some ⟨amountInAtom, script⟩

/-- `calculateChangeScriptSize`: via modelled `txhelper.MakeTxChangeSource`,
the change script size of an address is the length of its locking script,
failing when the address does not decode. -/
def calculateChangeScriptSize (addrScript : String → Option (List Nat))
    (changeAddress : String) : Except AuthorError Nat :=
  match addrScript changeAddress with
  | none => .error .changeAddressError
  | some script => .ok script.length

/-- `calculateMultipleChangeScriptSize`: the sum of the change script sizes
of all change destinations. -/
def calculateMultipleChangeScriptSize (addrScript : String → Option (List Nat)) :
    List TransactionDestination → Except AuthorError Nat
  | [] => .ok 0
  | changeDestination :: rest =>
    match calculateChangeScriptSize addrScript changeDestination.Address with
    | .error e => .error e
    | .ok changeScriptSize =>
      match calculateMultipleChangeScriptSize addrScript rest with
      | .error e => .error e
      | .ok totalRest => .ok (changeScriptSize + totalRest)

/-- The loop body of `ParseOutputsAndChangeDestination`, threading the
accumulated outputs, total send amount and max-amount recipient address. -/
def parseOutputsLoop (addrScript : String → Option (List Nat)) :
    List TransactionDestination → List TxOut → Int → String →
    Except AuthorError (List TxOut × Int × String)
  | [], outputs, totalSendAmount, maxAmountRecipientAddress =>
    .ok (outputs, totalSendAmount, maxAmountRecipientAddress)
  | destination :: rest, outputs, totalSendAmount, maxAmountRecipientAddress =>
    if ¬destination.SendMax ∧ (destination.AtomAmount ≤ 0 ∨ MaxAmount < destination.AtomAmount) then
      .error .invalidAmount
    else if destination.SendMax ∧ maxAmountRecipientAddress ≠ "" then
      .error .multipleMaxAmountRecipients
    else if destination.SendMax then
      parseOutputsLoop addrScript rest outputs totalSendAmount destination.Address
    else
      match MakeTxOutput addrScript destination.Address destination.AtomAmount with
      | none => .error .makeTxOutputError
      | some output =>
        parseOutputsLoop addrScript rest (outputs ++ [output])
          (totalSendAmount + output.Value) maxAmountRecipientAddress

/-- `ParseOutputsAndChangeDestination`: validates destination amounts, builds
a `TxOut` for each non-max destination, and returns the outputs, the total
send amount and the (at most one) max-amount recipient address. -/
def ParseOutputsAndChangeDestination (addrScript : String → Option (List Nat))
    (txDestinations : List TransactionDestination) :
    Except AuthorError (List TxOut × Int × String) :=
  parseOutputsLoop addrScript txDestinations [] 0 ""

/-- `txauthor.RandomizeOutputPosition` with injected randomness `r`: swap the
output at `index` with the one at position `r mod length`. -/
def RandomizeOutputPosition (outputs : List TxOut) (index : Nat) (r : Nat) : List TxOut :=
  let rr := r % outputs.length
  (outputs.set rr (outputs.getD index default)).set index (outputs.getD rr default)

/-- The change-materialization loop of `constructCustomTransaction`: for each
change destination, build its output, append it, randomize its position using
the next value of the randomness stream, and accumulate the total change
amount. -/
def addChangeOutputs (addrScript : String → Option (List Nat)) :
    List TransactionDestination → List TxOut → Int → List Nat →
    Except AuthorError (List TxOut × Int × List Nat)
  | [], outputs, totalChangeAmount, rand => .ok (outputs, totalChangeAmount, rand)
  | changeDestination :: rest, outputs, totalChangeAmount, rand =>
    match MakeTxOutput addrScript changeDestination.Address changeDestination.AtomAmount with
    | none => .error .changeAddressError
    | some changeOutput =>
      let outputs2 := outputs ++ [changeOutput]
      let changeOutputIndex := outputs2.length - 1
      let outputs3 := RandomizeOutputPosition outputs2 changeOutputIndex (rand.headD 0)
      addChangeOutputs addrScript rest outputs3 (totalChangeAmount + changeOutput.Value) rand.tail

/-- The change-mode validation step of `constructCustomTransaction`: when no
max-amount recipient and no explicit change destinations are present, a fresh
internal address is requested from the provider (injected as an `Option`). -/
def resolveMaxAmountAddress (maxAmountRecipientAddress : String)
    (changeDestinations : List TransactionDestination)
    (nextInternalAddress : Option String) : Except AuthorError String :=
  if maxAmountRecipientAddress = "" ∧ changeDestinations = [] then
    match nextInternalAddress with
    | none => .error .changeAddressGenError
    | some address => .ok address
  else .ok maxAmountRecipientAddress

/-- The change-script-size step of `constructCustomTransaction`: single change
script when a max-amount recipient address is active, otherwise the summed
size over the explicit change destinations. -/
def resolveChangeScriptSize (addrScript : String → Option (List Nat))
    (maxAmountRecipientAddress : String)
    (changeDestinations : List TransactionDestination) : Except AuthorError Nat :=
  if maxAmountRecipientAddress ≠ "" then
    calculateChangeScriptSize addrScript maxAmountRecipientAddress
  else
    calculateMultipleChangeScriptSize addrScript changeDestinations

/-- `totalInputAmount`: the sum of the supplied inputs' `ValueIn`. -/
def totalInputOf (inputs : List TxIn) : Int :=
  (inputs.map TxIn.ValueIn).sum

/-- `inputScriptSizes`: every input is costed as a P2PKH redemption. -/
def inputScriptSizesOf (inputs : List TxIn) : List Nat :=
  inputs.map fun _ => RedeemP2PKHSigScriptSize

/-- `maxSignedSize`: the size estimate used by `constructCustomTransaction`. -/
def signedSizeOf (inputs : List TxIn) (outputs : List TxOut) (changeScriptSize : Nat) : Nat :=
  EstimateSerializeSize (inputScriptSizesOf inputs) outputs changeScriptSize

/-- `maxRequiredFee`: the fee for `signedSizeOf` at the default relay rate. -/
def requiredFeeOf (inputs : List TxIn) (outputs : List TxOut) (changeScriptSize : Nat) : Int :=
  FeeForSerializeSize DefaultRelayFeePerKb (signedSizeOf inputs outputs changeScriptSize)

/-- `changeAmount`: total input minus total send minus the with-change fee. -/
def changeAmountOf (inputs : List TxIn) (outputs : List TxOut) (totalSendAmount : Int)
    (changeScriptSize : Nat) : Int :=
  totalInputOf inputs - totalSendAmount - requiredFeeOf inputs outputs changeScriptSize

/-- The tail of `constructCustomTransaction` after parsing and change-mode
resolution: size estimation, fee, insufficiency check, dust resolution,
change materialization with randomized positions, over-allocation check, and
assembly of the authored transaction. -/
def finishTx (addrScript : String → Option (List Nat)) (rand : List Nat)
    (inputs : List TxIn) (outputs : List TxOut) (totalSendAmount : Int)
    (maxAmountRecipientAddress : String)
    (changeDestinations : List TransactionDestination)
    (changeScriptSize : Nat) : Except AuthorError AuthoredTx :=
  if changeAmountOf inputs outputs totalSendAmount changeScriptSize < 0 then
    .error (.insufficientFunds (0 - changeAmountOf inputs outputs totalSendAmount changeScriptSize))
  else if changeAmountOf inputs outputs totalSendAmount changeScriptSize ≠ 0 ∧
      ¬(IsDustAmount (changeAmountOf inputs outputs totalSendAmount changeScriptSize)
        changeScriptSize DefaultRelayFeePerKb) then
    if MaxScriptElementSize < changeScriptSize then
      .error .scriptTooLarge
    else
      match addChangeOutputs addrScript
        (if maxAmountRecipientAddress ≠ "" then
          [⟨maxAmountRecipientAddress,
            changeAmountOf inputs outputs totalSendAmount changeScriptSize, false⟩]
        else changeDestinations) outputs 0 rand with
      | .error e => .error e
      | .ok (outputs2, totalChangeAmount, _) =>
        if changeAmountOf inputs outputs totalSendAmount changeScriptSize < totalChangeAmount then
          .error (.changeAllocationExceedsAvailable totalChangeAmount
            (changeAmountOf inputs outputs totalSendAmount changeScriptSize))
        else
          .ok ⟨totalInputOf inputs, signedSizeOf inputs outputs changeScriptSize, inputs, outputs2⟩
  else
    .ok ⟨totalInputOf inputs, signedSizeOf inputs outputs 0, inputs, outputs⟩

/-- `constructCustomTransaction`: parse destinations, reject conflicting
change specifications, resolve the change mode and change script size, and
finish via `finishTx`.  The external collaborators (address decoding, the
internal change address provider, randomness) are injected. -/
def constructCustomTransaction (addrScript : String → Option (List Nat))
    (nextInternalAddress : Option String) (rand : List Nat)
    (inputs : List TxIn) (destinations changeDestinations : List TransactionDestination) :
    Except AuthorError AuthoredTx :=
  match ParseOutputsAndChangeDestination addrScript destinations with
  | .error e => .error e
  | .ok (outputs, totalSendAmount, maxAmountRecipientAddress) =>
    if maxAmountRecipientAddress ≠ "" ∧ changeDestinations ≠ [] then
      .error .conflictingChange
    else
      match resolveMaxAmountAddress maxAmountRecipientAddress changeDestinations
          nextInternalAddress with
      | .error e => .error e
      | .ok maxAddr =>
        match resolveChangeScriptSize addrScript maxAddr changeDestinations with
        | .error e => .error e
        | .ok changeScriptSize =>
          finishTx addrScript rand inputs outputs totalSendAmount maxAddr
            changeDestinations changeScriptSize

/-- The change outputs determined by a change destination list: one output per
destination carrying its stated amount, in list order. -/
def changeOutputsOf (addrScript : String → Option (List Nat))
    (changeDestinations : List TransactionDestination) : List TxOut :=
  changeDestinations.filterMap fun cd => MakeTxOutput addrScript cd.Address cd.AtomAmount

/-! ### Concrete environment used by witnesses and counterexamples -/

/-- A concrete address decoder: `"P"`, `"C"` and `"I"` decode to 25-byte
scripts, `"HUGE"` to a 2049-byte script, everything else fails. -/
def addrA : String → Option (List Nat) := fun a =>
  if a = "P" ∨ a = "C" ∨ a = "I" then some (List.replicate 25 0)
  else if a = "HUGE" then some (List.replicate 2049 0)
  else none

/-- The 25-byte script produced by `addrA`. -/
def script25 : List Nat := List.replicate 25 0

/-! ### Invariants of the destination parser -/

/-- The running total of `parseOutputsLoop` tracks the sum of the accumulated
output values. -/
theorem parseOutputsLoop_sum (addrScript : String → Option (List Nat)) :
    ∀ (dests : List TransactionDestination) (outs : List TxOut) (total : Int)
      (maxA : String) (outs2 : List TxOut) (total2 : Int) (maxA2 : String),
      parseOutputsLoop addrScript dests outs total maxA = .ok (outs2, total2, maxA2) →
      (outs.map TxOut.Value).sum = total → (outs2.map TxOut.Value).sum = total2 := by
  intro dests
  induction dests with
  | nil =>
    intro outs total maxA outs2 total2 maxA2 h hsum
    simp only [parseOutputsLoop, Except.ok.injEq, Prod.mk.injEq] at h
    obtain ⟨h1, h2, h3⟩ := h
    subst h1 h2
    exact hsum
  | cons d rest ih =>
    intro outs total maxA outs2 total2 maxA2 h hsum
    simp only [parseOutputsLoop] at h
    split_ifs at h
    · exact ih outs total d.Address outs2 total2 maxA2 h hsum
    · revert h
      cases hm : MakeTxOutput addrScript d.Address d.AtomAmount with
      | none => intro h; exact absurd h (by simp)
      | some output =>
        intro h
        refine ih (outs ++ [output]) (total + output.Value) maxA outs2 total2 maxA2 h ?_
        simp [hsum]

/-- If parsing succeeds, the returned max-amount recipient address is nonempty
whenever the accumulator was nonempty or some remaining destination is marked
send-max with a nonempty address. -/
theorem parseOutputsLoop_maxAddr (addrScript : String → Option (List Nat)) :
    ∀ (dests : List TransactionDestination) (outs : List TxOut) (total : Int)
      (maxA : String) (outs2 : List TxOut) (total2 : Int) (maxA2 : String),
      parseOutputsLoop addrScript dests outs total maxA = .ok (outs2, total2, maxA2) →
      ((∃ d ∈ dests, d.SendMax = true ∧ d.Address ≠ "") ∨ maxA ≠ "") → maxA2 ≠ "" := by
  intro dests
  induction dests with
  | nil =>
    intro outs total maxA outs2 total2 maxA2 h hd
    simp only [parseOutputsLoop, Except.ok.injEq, Prod.mk.injEq] at h
    obtain ⟨h1, h2, h3⟩ := h
    subst h3
    rcases hd with hd | hd
    · simp at hd
    · exact hd
  | cons d rest ih =>
    intro outs total maxA outs2 total2 maxA2 h hd
    simp only [parseOutputsLoop] at h
    split_ifs at h with h1 h2 h3
    · -- d.SendMax is true, accumulator replaced by d.Address
      refine ih outs total d.Address outs2 total2 maxA2 h ?_
      rcases hd with hd | hd
      · obtain ⟨d', hd', hsm, hne⟩ := hd
        rcases List.mem_cons.mp hd' with hh | hh
        · subst hh; exact Or.inr hne
        · -- if d.Address were empty the earlier guard did not fire, so either way we
          -- can still find the witness in rest or use d.Address when nonempty
          by_cases hda : d.Address = ""
          · exact Or.inl ⟨d', hh, hsm, hne⟩
          · exact Or.inr hda
      · -- maxA ≠ "" together with d.SendMax would have fired the guard
        push_neg at h2
        exact absurd (h2 h3) hd
    · -- d is a plain destination; the accumulator is unchanged
      revert h
      cases hm : MakeTxOutput addrScript d.Address d.AtomAmount with
      | none => intro h; exact absurd h (by simp)
      | some output =>
        intro h
        refine ih (outs ++ [output]) (total + output.Value) maxA outs2 total2 maxA2 h ?_
        rcases hd with hd | hd
        · obtain ⟨d', hd', hsm, hne⟩ := hd
          rcases List.mem_cons.mp hd' with hh | hh
          · subst hh; simp at h3; simp [h3] at hsm
          · exact Or.inl ⟨d', hh, hsm, hne⟩
        · exact Or.inr hd

/-- The sum of the parsed output values equals the reported total send
amount. -/
theorem ParseOutputsAndChangeDestination_sum (addrScript : String → Option (List Nat))
    (dests : List TransactionDestination) (outs : List TxOut) (total : Int) (maxA : String)
    (h : ParseOutputsAndChangeDestination addrScript dests = .ok (outs, total, maxA)) :
    (outs.map TxOut.Value).sum = total :=
  parseOutputsLoop_sum addrScript dests [] 0 "" outs total maxA h (by simp)

/-- With two or more send-max destinations remaining (or one remaining with a
nonempty accumulator), all of them with nonempty addresses, the parse loop
cannot succeed. -/
theorem parseOutputsLoop_two_sendMax_not_ok (addrScript : String → Option (List Nat)) :
    ∀ (dests : List TransactionDestination) (outs : List TxOut) (total : Int) (maxA : String),
      (2 ≤ (dests.filter fun d => d.SendMax).length ∨
        (maxA ≠ "" ∧ 1 ≤ (dests.filter fun d => d.SendMax).length)) →
      (∀ d ∈ dests, d.SendMax = true → d.Address ≠ "") →
      ∀ r, parseOutputsLoop addrScript dests outs total maxA ≠ .ok r := by
  intro dests
  induction dests with
  | nil =>
    intro outs total maxA hcount hne r
    simp at hcount
  | cons d rest ih =>
    intro outs total maxA hcount hne r h
    simp only [parseOutputsLoop] at h
    split_ifs at h with h1 h2 h3
    · -- d is send-max and the guard did not fire, so maxA = ""
      push_neg at h2
      refine ih outs total d.Address ?_ (fun d' hd' => hne d' (List.mem_cons_of_mem d hd')) r h
      right
      refine ⟨hne d (List.mem_cons_self d rest) h3, ?_⟩
      rcases hcount with hc | hc
      · have : (List.filter (fun d => d.SendMax) (d :: rest)).length =
            1 + (List.filter (fun d => d.SendMax) rest).length := by
          simp [List.filter_cons, h3, Nat.add_comm]
        omega
      · exact absurd (h2 h3) hc.1
    · -- plain destination: the send-max counts are unchanged
      revert h
      cases hm : MakeTxOutput addrScript d.Address d.AtomAmount with
      | none => intro h; exact absurd h (by simp)
      | some output =>
        intro h
        have hds : d.SendMax = false := by
          by_contra hc
          simp at hc
          simp [hc] at h3
        refine ih (outs ++ [output]) (total + output.Value) maxA ?_
          (fun d' hd' => hne d' (List.mem_cons_of_mem d hd')) r h
        rcases hcount with hc | hc
        · left; simpa [List.filter_cons, hds] using hc
        · right; exact ⟨hc.1, by simpa [List.filter_cons, hds] using hc.2⟩

/-- With two or more send-max destinations remaining (or one remaining with a
nonempty accumulator), all send-max addresses nonempty and all plain
destinations fully valid, the parse loop returns exactly
`multipleMaxAmountRecipients`. -/
theorem parseOutputsLoop_two_sendMax_error (addrScript : String → Option (List Nat)) :
    ∀ (dests : List TransactionDestination) (outs : List TxOut) (total : Int) (maxA : String),
      (2 ≤ (dests.filter fun d => d.SendMax).length ∨
        (maxA ≠ "" ∧ 1 ≤ (dests.filter fun d => d.SendMax).length)) →
      (∀ d ∈ dests, d.SendMax = true → d.Address ≠ "") →
      (∀ d ∈ dests, d.SendMax = false →
        (0 < d.AtomAmount ∧ d.AtomAmount ≤ MaxAmount ∧ addrScript d.Address ≠ none)) →
      parseOutputsLoop addrScript dests outs total maxA = .error .multipleMaxAmountRecipients := by
  intro dests
  induction dests with
  | nil =>
    intro outs total maxA hcount hne hvalid
    simp at hcount
  | cons d rest ih =>
    intro outs total maxA hcount hne hvalid
    by_cases hds : d.SendMax = true
    · by_cases hma : maxA = ""
      · -- no error yet: recurse with the nonempty address of d
        have hstep : parseOutputsLoop addrScript (d :: rest) outs total maxA =
            parseOutputsLoop addrScript rest outs total d.Address := by
          simp [parseOutputsLoop, hds, hma]
        rw [hstep]
        refine ih outs total d.Address ?_
          (fun d' hd' => hne d' (List.mem_cons_of_mem d hd'))
          (fun d' hd' => hvalid d' (List.mem_cons_of_mem d hd'))
        right
        refine ⟨hne d (List.mem_cons_self d rest) hds, ?_⟩
        rcases hcount with hc | hc
        · have : (List.filter (fun d => d.SendMax) (d :: rest)).length =
              1 + (List.filter (fun d => d.SendMax) rest).length := by
            simp [List.filter_cons, hds, Nat.add_comm]
          omega
        · exact absurd hma hc.1
      · -- second send-max with a recorded recipient: the error fires
        simp [parseOutputsLoop, hds, hma]
    · -- plain destination: validity lets the loop continue
      simp only [Bool.not_eq_true] at hds
      obtain ⟨hpos, hle, hdec⟩ := hvalid d (List.mem_cons_self d rest) hds
      have hstep : ∀ output, MakeTxOutput addrScript d.Address d.AtomAmount = some output →
          parseOutputsLoop addrScript (d :: rest) outs total maxA =
          parseOutputsLoop addrScript rest (outs ++ [output]) (total + output.Value) maxA := by
        intro output hout
        simp [parseOutputsLoop, hds, hout, not_le.mpr hpos, not_lt.mpr hle]
      revert hdec
      cases hm : addrScript d.Address with
      | none => intro hdec; exact absurd rfl hdec
      | some script =>
        intro hdec
        have hout : MakeTxOutput addrScript d.Address d.AtomAmount =
            some ⟨d.AtomAmount, script⟩ := by simp [MakeTxOutput, hm]
        rw [hstep _ hout]
        refine ih (outs ++ [⟨d.AtomAmount, script⟩]) (total + d.AtomAmount) maxA ?_
          (fun d' hd' => hne d' (List.mem_cons_of_mem d hd'))
          (fun d' hd' => hvalid d' (List.mem_cons_of_mem d hd'))
        rcases hcount with hc | hc
        · left; simpa [List.filter_cons, hds] using hc
        · right; exact ⟨hc.1, by simpa [List.filter_cons, hds] using hc.2⟩

/-- If any remaining destination is a plain destination with an out-of-range
amount, the parse loop cannot succeed. -/
theorem parseOutputsLoop_badAmount_not_ok (addrScript : String → Option (List Nat)) :
    ∀ (dests : List TransactionDestination) (outs : List TxOut) (total : Int) (maxA : String),
      (∃ d ∈ dests, d.SendMax = false ∧ (d.AtomAmount ≤ 0 ∨ MaxAmount < d.AtomAmount)) →
      ∀ r, parseOutputsLoop addrScript dests outs total maxA ≠ .ok r := by
  intro dests
  induction dests with
  | nil =>
    intro outs total maxA hbad r
    simp at hbad
  | cons d rest ih =>
    intro outs total maxA hbad r h
    simp only [parseOutputsLoop] at h
    split_ifs at h with h1 h2 h3
    · -- d is send-max, the witness is in rest
      obtain ⟨d', hd', hsm, hrange⟩ := hbad
      rcases List.mem_cons.mp hd' with hh | hh
      · subst hh; simp [h3] at hsm
      · exact ih outs total d.Address ⟨d', hh, hsm, hrange⟩ r h
    · revert h
      cases hm : MakeTxOutput addrScript d.Address d.AtomAmount with
      | none => intro h; exact absurd h (by simp)
      | some output =>
        intro h
        obtain ⟨d', hd', hsm, hrange⟩ := hbad
        rcases List.mem_cons.mp hd' with hh | hh
        · subst hh
          exact h1 ⟨by simp [hsm], hrange⟩
        · exact ih (outs ++ [output]) (total + output.Value) maxA ⟨d', hh, hsm, hrange⟩ r h

/-- When every destination before the offending one is a fully valid plain
destination, an out-of-range amount yields exactly `invalidAmount`. -/
theorem parseOutputsLoop_badAmount_error (addrScript : String → Option (List Nat)) :
    ∀ (pre : List TransactionDestination) (d : TransactionDestination)
      (post : List TransactionDestination) (outs : List TxOut) (total : Int) (maxA : String),
      (∀ p ∈ pre, p.SendMax = false ∧ 0 < p.AtomAmount ∧ p.AtomAmount ≤ MaxAmount ∧
        addrScript p.Address ≠ none) →
      d.SendMax = false → (d.AtomAmount ≤ 0 ∨ MaxAmount < d.AtomAmount) →
      parseOutputsLoop addrScript (pre ++ d :: post) outs total maxA = .error .invalidAmount := by
  intro pre
  induction pre with
  | nil =>
    intro d post outs total maxA hpre hsm hrange
    simp [parseOutputsLoop, hsm, hrange]
  | cons p rest ih =>
    intro d post outs total maxA hpre hsm hrange
    obtain ⟨hpsm, hpos, hle, hdec⟩ := hpre p (List.mem_cons_self p rest)
    revert hdec
    cases hm : addrScript p.Address with
    | none => intro hdec; exact absurd rfl hdec
    | some script =>
      intro hdec
      have hout : MakeTxOutput addrScript p.Address p.AtomAmount =
          some ⟨p.AtomAmount, script⟩ := by simp [MakeTxOutput, hm]
      have hstep : parseOutputsLoop addrScript ((p :: rest) ++ d :: post) outs total maxA =
          parseOutputsLoop addrScript (rest ++ d :: post)
            (outs ++ [⟨p.AtomAmount, script⟩]) (total + p.AtomAmount) maxA := by
        simp [parseOutputsLoop, hpsm, hout, not_le.mpr hpos, not_lt.mpr hle]
      rw [hstep]
      exact ih d post (outs ++ [⟨p.AtomAmount, script⟩]) (total + p.AtomAmount) maxA
        (fun p' hp' => hpre p' (List.mem_cons_of_mem p hp')) hsm hrange

/-! ### The randomized change placement permutes the output list -/

/-- Pulling the element at position `j` to the front while writing `a` into
position `j` permutes the list with `a` consed on. -/
theorem getD_cons_set_perm (a : TxOut) :
    ∀ (t : List TxOut) (j : Nat), j < t.length →
      List.Perm (t.getD j default :: t.set j a) (a :: t) := by
  intro t
  induction t with
  | nil => intro j hj; simp at hj
  | cons b s ih =>
    intro j hj
    cases j with
    | zero =>
      simpa using List.Perm.swap a b s
    | succ j =>
      have hj' : j < s.length := by simpa using hj
      exact (List.Perm.swap b (s.getD j default) (s.set j a)).trans
        ((List.Perm.cons b (ih j hj')).trans (List.Perm.swap a b s))

/-- Swapping two positions of a list (by a pair of `set`s, as
`RandomizeOutputPosition` does) permutes it. -/
theorem set_set_swap_perm :
    ∀ (l : List TxOut) (i j : Nat), i < l.length → j < l.length →
      List.Perm ((l.set i (l.getD j default)).set j (l.getD i default)) l := by
  intro l
  induction l with
  | nil => intro i j hi hj; simp at hi
  | cons b s ih =>
    intro i j hi hj
    cases i with
    | zero =>
      cases j with
      | zero => simp
      | succ j =>
        have hj' : j < s.length := by simpa using hj
        simpa using getD_cons_set_perm b s j hj'
    | succ i =>
      have hi' : i < s.length := by simpa using hi
      cases j with
      | zero =>
        simpa using getD_cons_set_perm b s i hi'
      | succ j =>
        have hj' : j < s.length := by simpa using hj
        simpa using List.Perm.cons b (ih i j hi' hj')

/-- `RandomizeOutputPosition` permutes the outputs, for any randomness. -/
theorem RandomizeOutputPosition_perm (outputs : List TxOut) (index r : Nat)
    (hindex : index < outputs.length) :
    List.Perm (RandomizeOutputPosition outputs index r) outputs :=
  set_set_swap_perm outputs (r % outputs.length) index
    (Nat.mod_lt r (Nat.lt_of_le_of_lt (Nat.zero_le index) hindex)) hindex

/-- When every change address decodes, the materialization loop succeeds,
accumulates exactly the stated amounts, and produces a permutation of the
prior outputs followed by the change outputs. -/
theorem addChangeOutputs_spec (addrScript : String → Option (List Nat)) :
    ∀ (cds : List TransactionDestination) (outs : List TxOut) (tca : Int) (rand : List Nat),
      (∀ cd ∈ cds, addrScript cd.Address ≠ none) →
      ∃ outs2 rand2,
        addChangeOutputs addrScript cds outs tca rand =
          .ok (outs2, tca + ((changeOutputsOf addrScript cds).map TxOut.Value).sum, rand2) ∧
        List.Perm outs2 (outs ++ changeOutputsOf addrScript cds) := by
  intro cds
  induction cds with
  | nil =>
    intro outs tca rand hdec
    exact ⟨outs, rand, by simp [addChangeOutputs, changeOutputsOf], by simp [changeOutputsOf]⟩
  | cons cd rest ih =>
    intro outs tca rand hdec
    have hd := hdec cd (List.mem_cons_self cd rest)
    revert hd
    cases hm : addrScript cd.Address with
    | none => intro hd; exact absurd rfl hd
    | some script =>
      intro hd
      have hout : MakeTxOutput addrScript cd.Address cd.AtomAmount =
          some ⟨cd.AtomAmount, script⟩ := by simp [MakeTxOutput, hm]
      set c : TxOut := ⟨cd.AtomAmount, script⟩ with hc
      have hlen : (outs ++ [c]).length = outs.length + 1 := by simp
      have hperm3 : List.Perm
          (RandomizeOutputPosition (outs ++ [c]) ((outs ++ [c]).length - 1) (rand.headD 0))
          (outs ++ [c]) := by
        refine RandomizeOutputPosition_perm _ _ _ ?_
        rw [hlen]
        omega
      obtain ⟨outs2, rand2, hrun, hperm⟩ := ih
        (RandomizeOutputPosition (outs ++ [c]) ((outs ++ [c]).length - 1) (rand.headD 0))
        (tca + c.Value) rand.tail
        (fun cd' hcd' => hdec cd' (List.mem_cons_of_mem cd hcd'))
      refine ⟨outs2, rand2, ?_, ?_⟩
      · have hsum : tca + c.Value + ((changeOutputsOf addrScript rest).map TxOut.Value).sum =
            tca + ((changeOutputsOf addrScript (cd :: rest)).map TxOut.Value).sum := by
          simp [changeOutputsOf, List.filterMap_cons, hout, hc]
          ring
        rw [← hsum]
        simpa [addChangeOutputs, hout] using hrun
      · refine hperm.trans ?_
        refine (List.Perm.append_right (changeOutputsOf addrScript rest) hperm3).trans ?_
        have : changeOutputsOf addrScript (cd :: rest) = c :: changeOutputsOf addrScript rest := by
          simp [changeOutputsOf, List.filterMap_cons, hout]
        rw [this, List.append_assoc]
        simp

/-- Whatever the decode results, a successful materialization loop changes the
output value sum by exactly the accumulated change amount. -/
theorem addChangeOutputs_sum (addrScript : String → Option (List Nat)) :
    ∀ (cds : List TransactionDestination) (outs : List TxOut) (tca : Int) (rand : List Nat)
      (outs2 : List TxOut) (tca2 : Int) (rand2 : List Nat),
      addChangeOutputs addrScript cds outs tca rand = .ok (outs2, tca2, rand2) →
      (outs2.map TxOut.Value).sum + tca = (outs.map TxOut.Value).sum + tca2 := by
  intro cds
  induction cds with
  | nil =>
    intro outs tca rand outs2 tca2 rand2 h
    simp only [addChangeOutputs, Except.ok.injEq, Prod.mk.injEq] at h
    obtain ⟨h1, h2, h3⟩ := h
    subst h1 h2
    ring
  | cons cd rest ih =>
    intro outs tca rand outs2 tca2 rand2 h
    revert h
    cases hm : MakeTxOutput addrScript cd.Address cd.AtomAmount with
    | none => intro h; simp [addChangeOutputs, hm] at h
    | some c =>
      intro h
      simp only [addChangeOutputs, hm] at h
      have hstep := ih _ _ _ _ _ _ h
      have hperm : List.Perm
          (RandomizeOutputPosition (outs ++ [c]) ((outs ++ [c]).length - 1) (rand.headD 0))
          (outs ++ [c]) := by
        refine RandomizeOutputPosition_perm _ _ _ ?_
        simp
      have hsum3 : ((RandomizeOutputPosition (outs ++ [c]) ((outs ++ [c]).length - 1)
          (rand.headD 0)).map TxOut.Value).sum = (outs.map TxOut.Value).sum + c.Value := by
        rw [(hperm.map TxOut.Value).sum_eq]
        simp
      rw [hsum3] at hstep
      omega

/-! ### The summed multi-change script size dominates each individual size -/

/-- Each change destination's script size is at most the summed size returned
by `calculateMultipleChangeScriptSize`. -/
theorem calculateMultipleChangeScriptSize_le (addrScript : String → Option (List Nat)) :
    ∀ (cds : List TransactionDestination) (css : Nat),
      calculateMultipleChangeScriptSize addrScript cds = .ok css →
      ∀ cd ∈ cds, ∀ script, addrScript cd.Address = some script → script.length ≤ css := by
  intro cds
  induction cds with
  | nil => intro css h cd hcd; simp at hcd
  | cons cd0 rest ih =>
    intro css h cd hcd script hs
    revert h
    cases hm : addrScript cd0.Address with
    | none =>
      intro h
      simp [calculateMultipleChangeScriptSize, calculateChangeScriptSize, hm] at h
    | some script0 =>
      cases hr : calculateMultipleChangeScriptSize addrScript rest with
      | error e =>
        intro h
        simp [calculateMultipleChangeScriptSize, calculateChangeScriptSize, hm, hr] at h
      | ok totalRest =>
        intro h
        simp only [calculateMultipleChangeScriptSize, calculateChangeScriptSize, hm, hr,
          Except.ok.injEq] at h
        rcases List.mem_cons.mp hcd with hh | hh
        · subst hh
          rw [hm] at hs
          cases hs
          omega
        · have := ih totalRest hr cd hh script hs
          omega

/-! ### Fee and size estimate arithmetic -/

theorem varIntSerializeSize_mono {a b : Nat} (h : a ≤ b) :
    varIntSerializeSize a ≤ varIntSerializeSize b := by
  unfold varIntSerializeSize
  split_ifs <;> omega

/-- At the default relay fee rate, the fee of a positive size is the linear
fee clamped to `MaxAmount`. -/
theorem FeeForSerializeSize_default_eq (s : Nat) (hs : 1 ≤ s) :
    FeeForSerializeSize DefaultRelayFeePerKb s =
      if MaxAmount < 10 * (s : Int) then MaxAmount else 10 * (s : Int) := by
  unfold FeeForSerializeSize DefaultRelayFeePerKb
  have hdiv : Int.tdiv (10000 * (s : Int)) 1000 = 10 * s := by
    have h : (10000 : Int) * s = 1000 * (10 * s) := by ring
    rw [h, Int.mul_tdiv_cancel_left _ (by norm_num)]
  rw [hdiv]
  have hpos : (0 : Int) < 10 * s := by positivity
  have hne : ¬((10 : Int) * s = 0 ∧ (0 : Int) < 10000) := by
    intro hh
    omega
  simp only [if_neg hne]
  split_ifs with h1 h2 h2 <;> first | rfl | omega

theorem FeeForSerializeSize_default_mono {s1 s2 : Nat} (h1 : 1 ≤ s1) (h : s1 ≤ s2) :
    FeeForSerializeSize DefaultRelayFeePerKb s1 ≤ FeeForSerializeSize DefaultRelayFeePerKb s2 := by
  rw [FeeForSerializeSize_default_eq s1 h1, FeeForSerializeSize_default_eq s2 (le_trans h1 h)]
  have : (10 : Int) * s1 ≤ 10 * s2 := by
    have : (s1 : Int) ≤ s2 := by exact_mod_cast h
    omega
  split_ifs <;> omega

/-- Every size estimate is positive. -/
theorem EstimateSerializeSize_pos (sizes : List Nat) (outs : List TxOut) (css : Nat) :
    1 ≤ EstimateSerializeSize sizes outs css := by
  simp only [EstimateSerializeSize]
  omega

/-- Dropping the change slot never increases the size estimate. -/
theorem EstimateSerializeSize_zero_le (sizes : List Nat) (outs : List TxOut) (css : Nat) :
    EstimateSerializeSize sizes outs 0 ≤ EstimateSerializeSize sizes outs css := by
  have hv : varIntSerializeSize outs.length ≤ varIntSerializeSize (outs.length + 1) :=
    varIntSerializeSize_mono (Nat.le_succ _)
  simp only [EstimateSerializeSize, lt_self_iff_false, if_false, Nat.add_zero]
  by_cases h : 0 < css
  · simp only [h, if_true]
    omega
  · simp only [h, if_false, Nat.add_zero]
    omega

/-! ### Inversion of the finishing step -/

/-- Every successful `finishTx` reports the summed input value as
`TotalInput` and the supplied inputs, unmodified and in order, as `TxIn`. -/
theorem finishTx_ok_fields (addrScript : String → Option (List Nat)) (rand : List Nat)
    (inputs : List TxIn) (outputs : List TxOut) (totalSendAmount : Int) (maxAddr : String)
    (changeDestinations : List TransactionDestination) (changeScriptSize : Nat)
    (tx : AuthoredTx)
    (h : finishTx addrScript rand inputs outputs totalSendAmount maxAddr
      changeDestinations changeScriptSize = .ok tx) :
    tx.TotalInput = totalInputOf inputs ∧ tx.TxIn = inputs := by
  unfold finishTx at h
  split at h
  · exact absurd h (by simp)
  · split at h
    · split at h
      · exact absurd h (by simp)
      · split at h
        · exact absurd h (by simp)
        · split at h
          · exact absurd h (by simp)
          · injection h with h2
            subst h2
            exact ⟨rfl, rfl⟩
    · injection h with h2
      subst h2
      exact ⟨rfl, rfl⟩

/-- Every successful `finishTx` satisfies
`sum(outputs) + fee(EstimatedSignedSerializeSize) ≤ TotalInput`: the implied
fee never exceeds what the inputs can pay, but underallocated explicit change
and the dropped-change re-estimate can leave it strictly below. -/
theorem finishTx_conservation_le (addrScript : String → Option (List Nat)) (rand : List Nat)
    (inputs : List TxIn) (outputs : List TxOut) (totalSendAmount : Int) (maxAddr : String)
    (changeDestinations : List TransactionDestination) (changeScriptSize : Nat)
    (tx : AuthoredTx)
    (hsend : (outputs.map TxOut.Value).sum = totalSendAmount)
    (h : finishTx addrScript rand inputs outputs totalSendAmount maxAddr
      changeDestinations changeScriptSize = .ok tx) :
    (tx.TxOut.map TxOut.Value).sum +
      FeeForSerializeSize DefaultRelayFeePerKb tx.EstimatedSignedSerializeSize ≤
      tx.TotalInput := by
  unfold finishTx at h
  split at h
  next hneg => exact absurd h (by simp)
  next hneg =>
    split at h
    next hmat =>
      split at h
      next hbig => exact absurd h (by simp)
      next hbig =>
        split at h
        next e heq => exact absurd h (by simp)
        next outs2 tca rand2 heq =>
          split at h
          next hover => exact absurd h (by simp)
          next hover =>
            injection h with h2
            subst h2
            have hsum := addChangeOutputs_sum addrScript _ _ _ _ _ _ _ heq
            simp only [add_zero, hsend] at hsum
            simp only [changeAmountOf] at hover
            simp only []
            have hfee : requiredFeeOf inputs outputs changeScriptSize =
                FeeForSerializeSize DefaultRelayFeePerKb
                  (signedSizeOf inputs outputs changeScriptSize) := rfl
            omega
    next hmat =>
      injection h with h2
      subst h2
      have hle : signedSizeOf inputs outputs 0 ≤ signedSizeOf inputs outputs changeScriptSize :=
        EstimateSerializeSize_zero_le (inputScriptSizesOf inputs) outputs changeScriptSize
      have hmono : FeeForSerializeSize DefaultRelayFeePerKb (signedSizeOf inputs outputs 0) ≤
          FeeForSerializeSize DefaultRelayFeePerKb
            (signedSizeOf inputs outputs changeScriptSize) :=
        FeeForSerializeSize_default_mono
          (EstimateSerializeSize_pos (inputScriptSizesOf inputs) outputs 0) hle
      simp only [changeAmountOf, requiredFeeOf] at hneg
      simp only [hsend]
      omega

/-! ### Stage decomposition of the orchestrator -/

/-- Parser failures propagate verbatim out of `constructCustomTransaction`. -/
theorem constructCustomTransaction_parse_error (addrScript : String → Option (List Nat))
    (nextInternalAddress : Option String) (rand : List Nat) (inputs : List TxIn)
    (destinations changeDestinations : List TransactionDestination) (e : AuthorError)
    (hp : ParseOutputsAndChangeDestination addrScript destinations = .error e) :
    constructCustomTransaction addrScript nextInternalAddress rand inputs destinations
      changeDestinations = .error e := by
  simp [constructCustomTransaction, hp]

/-- A parsed max-amount recipient together with explicit change destinations
is rejected as a conflicting change specification. -/
theorem constructCustomTransaction_conflict (addrScript : String → Option (List Nat))
    (nextInternalAddress : Option String) (rand : List Nat) (inputs : List TxIn)
    (destinations changeDestinations : List TransactionDestination)
    (outs : List TxOut) (ts : Int) (maxA0 : String)
    (hp : ParseOutputsAndChangeDestination addrScript destinations = .ok (outs, ts, maxA0))
    (h1 : maxA0 ≠ "") (h2 : changeDestinations ≠ []) :
    constructCustomTransaction addrScript nextInternalAddress rand inputs destinations
      changeDestinations = .error .conflictingChange := by
  simp [constructCustomTransaction, hp, h1, h2]

/-- After a successful parse, a passed conflict check, and successful change
address and change-script-size resolution, the orchestrator reduces to
`finishTx`. -/
theorem constructCustomTransaction_stages (addrScript : String → Option (List Nat))
    (nextInternalAddress : Option String) (rand : List Nat) (inputs : List TxIn)
    (destinations changeDestinations : List TransactionDestination)
    (outs : List TxOut) (ts : Int) (maxA0 maxAddr : String) (css : Nat)
    (hp : ParseOutputsAndChangeDestination addrScript destinations = .ok (outs, ts, maxA0))
    (hc : ¬(maxA0 ≠ "" ∧ changeDestinations ≠ []))
    (hr : resolveMaxAmountAddress maxA0 changeDestinations nextInternalAddress = .ok maxAddr)
    (hs : resolveChangeScriptSize addrScript maxAddr changeDestinations = .ok css) :
    constructCustomTransaction addrScript nextInternalAddress rand inputs destinations
      changeDestinations =
      finishTx addrScript rand inputs outs ts maxAddr changeDestinations css := by
  simp only [constructCustomTransaction, hp, hr, hs]
  rw [if_neg hc]

/-- When parsing yields no max-amount recipient and explicit change
destinations exist, the change mode resolves to the multi-change path. -/
theorem resolveMaxAmountAddress_multi (changeDestinations : List TransactionDestination)
    (nextInternalAddress : Option String) (h : changeDestinations ≠ []) :
    resolveMaxAmountAddress "" changeDestinations nextInternalAddress = .ok "" := by
  simp [resolveMaxAmountAddress, h]

/-- In multi-change mode, the change script size is the summed size. -/
theorem resolveChangeScriptSize_multi (addrScript : String → Option (List Nat))
    (changeDestinations : List TransactionDestination) :
    resolveChangeScriptSize addrScript "" changeDestinations =
      calculateMultipleChangeScriptSize addrScript changeDestinations := by
  simp [resolveChangeScriptSize]

/-- With a nonempty max-amount recipient address, the change script size is
that address's script size. -/
theorem resolveChangeScriptSize_single (addrScript : String → Option (List Nat))
    (maxAddr : String) (changeDestinations : List TransactionDestination)
    (h : maxAddr ≠ "") :
    resolveChangeScriptSize addrScript maxAddr changeDestinations =
      calculateChangeScriptSize addrScript maxAddr := by
  simp [resolveChangeScriptSize, h]

/-- Under full decoding, the change outputs carry exactly the stated
amounts. -/
theorem changeOutputsOf_values (addrScript : String → Option (List Nat)) :
    ∀ (cds : List TransactionDestination),
      (∀ cd ∈ cds, addrScript cd.Address ≠ none) →
      (changeOutputsOf addrScript cds).map TxOut.Value =
        cds.map TransactionDestination.AtomAmount := by
  intro cds
  induction cds with
  | nil => intro hdec; simp [changeOutputsOf]
  | cons cd rest ih =>
    intro hdec
    have hd := hdec cd (List.mem_cons_self cd rest)
    revert hd
    cases hm : addrScript cd.Address with
    | none => intro hd; exact absurd rfl hd
    | some script =>
      intro hd
      have hout : MakeTxOutput addrScript cd.Address cd.AtomAmount =
          some ⟨cd.AtomAmount, script⟩ := by simp [MakeTxOutput, hm]
      simp only [changeOutputsOf, List.filterMap_cons, hout, List.map_cons]
      exact congrArg _ (ih fun cd' hcd' => hdec cd' (List.mem_cons_of_mem cd hcd'))

/-! ### Where the randomized swap puts the change output -/

/-- Swapping the freshly appended change output with position 0 places it at
the head of the outputs. -/
theorem RandomizeOutputPosition_zero_head (outs : List TxOut) (c : TxOut)
    (houts : outs ≠ []) :
    (RandomizeOutputPosition (outs ++ [c]) outs.length 0).getD 0 default = c := by
  have hlen : 0 < (outs ++ [c]).length := by simp
  have hlpos : 0 < outs.length := by cases outs <;> simp_all
  have hk : (outs ++ [c]).getD outs.length default = c := by
    simp [List.getD]
  simp only [RandomizeOutputPosition, Nat.zero_mod]
  rw [hk]
  have hne : outs.length ≠ 0 := by omega
  calc (((outs ++ [c]).set 0 c).set outs.length ((outs ++ [c]).getD 0 default)).getD 0 default
      = ((outs ++ [c]).set 0 c).getD 0 default := by
        simp [List.getD, List.getElem?_set_ne hne]
    _ = c := by simp [List.getD, List.getElem?_set_self, hlen]

/-- Randomness equal to the change index leaves the change output in place,
so position 0 still holds the first payment output. -/
theorem RandomizeOutputPosition_id_head (outs : List TxOut) (c : TxOut)
    (houts : outs ≠ []) :
    (RandomizeOutputPosition (outs ++ [c]) outs.length outs.length).getD 0 default =
      outs.getD 0 default := by
  have hlpos : 0 < outs.length := by cases outs <;> simp_all
  have hmod : outs.length % (outs ++ [c]).length = outs.length := by
    refine Nat.mod_eq_of_lt ?_
    simp
  simp only [RandomizeOutputPosition, hmod]
  have hne : outs.length ≠ 0 := by omega
  have h0 : (outs ++ [c]).getD 0 default = outs.getD 0 default := by
    simp [List.getD, List.getElem?_append_left hlpos]
  calc (((outs ++ [c]).set outs.length ((outs ++ [c]).getD outs.length default)).set
        outs.length ((outs ++ [c]).getD outs.length default)).getD 0 default
      = (outs ++ [c]).getD 0 default := by
        simp [List.getD, List.getElem?_set_ne hne]
    _ = outs.getD 0 default := h0

/-- The head of a nonempty list is a member. -/
theorem getD_zero_mem (outs : List TxOut) (houts : outs ≠ []) :
    outs.getD 0 default ∈ outs := by
  cases outs <;> simp_all

/-! ### Claims -/

/-- C4 (amended): a destination list with two or more send-max destinations,
each carrying a nonempty address, never parses successfully; when additionally
every plain destination has an in-range amount and a decodable address, the
failure is exactly `multipleMaxAmountRecipients`.  (The unamended claim fails
when the first send-max destination has an empty address: the recipient
accumulator stays empty and the duplicate is not detected.) -/
theorem c4_multiple_sendmax_rejected (addrScript : String → Option (List Nat))
    (dests : List TransactionDestination)
    (hcount : 2 ≤ (dests.filter fun d => d.SendMax).length)
    (hne : ∀ d ∈ dests, d.SendMax = true → d.Address ≠ "") :
    (∀ r, ParseOutputsAndChangeDestination addrScript dests ≠ .ok r) ∧
    ((∀ d ∈ dests, d.SendMax = false →
        (0 < d.AtomAmount ∧ d.AtomAmount ≤ MaxAmount ∧ addrScript d.Address ≠ none)) →
      ParseOutputsAndChangeDestination addrScript dests =
        .error .multipleMaxAmountRecipients) :=
  ⟨fun r => parseOutputsLoop_two_sendMax_not_ok addrScript dests [] 0 "" (Or.inl hcount) hne r,
   fun hvalid =>
     parseOutputsLoop_two_sendMax_error addrScript dests [] 0 "" (Or.inl hcount) hne hvalid⟩

/-- C4 counterexample: two send-max destinations where the first has an empty
address parse successfully, and the second is silently picked as the
max-amount recipient — contradicting the claim that such a list always fails
with `multipleMaxAmountRecipients`. -/
theorem c4_counterexample :
    ParseOutputsAndChangeDestination (fun _ => none)
      [⟨"", 0, true⟩, ⟨"B", 0, true⟩] = .ok ([], 0, "B") := by
  decide

/-- C4 witness: two send-max destinations with nonempty addresses fail with
`multipleMaxAmountRecipients`. -/
theorem c4_witness :
    ParseOutputsAndChangeDestination (fun _ => none)
      [⟨"M1", 0, true⟩, ⟨"M2", 0, true⟩] = .error .multipleMaxAmountRecipients :=
  (c4_multiple_sendmax_rejected (fun _ => none) [⟨"M1", 0, true⟩, ⟨"M2", 0, true⟩]
    (by decide) (by decide)).2 (by decide)

/-- C8 (amended): a destination list containing a plain destination with an
out-of-range amount (≤ 0 or above `MaxAmount`) never parses successfully, and
when every destination before the offending one is a valid plain destination
the error is exactly `invalidAmount` (in particular for a lone zero-amount
destination).  (The unamended claim fails when an earlier destination fails
for a different reason, e.g. a non-decoding address.) -/
theorem c8_invalid_amount (addrScript : String → Option (List Nat))
    (dests : List TransactionDestination)
    (hbad : ∃ d ∈ dests, d.SendMax = false ∧ (d.AtomAmount ≤ 0 ∨ MaxAmount < d.AtomAmount)) :
    (∀ r, ParseOutputsAndChangeDestination addrScript dests ≠ .ok r) ∧
    (∀ (pre : List TransactionDestination) (d : TransactionDestination)
      (post : List TransactionDestination), dests = pre ++ d :: post →
      d.SendMax = false → (d.AtomAmount ≤ 0 ∨ MaxAmount < d.AtomAmount) →
      (∀ p ∈ pre, p.SendMax = false ∧ 0 < p.AtomAmount ∧ p.AtomAmount ≤ MaxAmount ∧
        addrScript p.Address ≠ none) →
      ParseOutputsAndChangeDestination addrScript dests = .error .invalidAmount) := by
  constructor
  · exact fun r => parseOutputsLoop_badAmount_not_ok addrScript dests [] 0 "" hbad r
  · intro pre d post hsplit hsm hrange hpre
    unfold ParseOutputsAndChangeDestination
    rw [hsplit]
    exact parseOutputsLoop_badAmount_error addrScript pre d post [] 0 "" hpre hsm hrange

/-- C8 counterexample: a non-decoding address before a zero-amount
destination makes parsing fail with the make-output error, not
`invalidAmount` — contradicting the claim that any out-of-range amount makes
parsing fail with `invalidAmount`. -/
theorem c8_counterexample :
    ParseOutputsAndChangeDestination addrA [⟨"bad", 5, false⟩, ⟨"P", 0, false⟩] =
      .error .makeTxOutputError ∧
    AuthorError.makeTxOutputError ≠ AuthorError.invalidAmount := by
  constructor
  · decide
  · decide

/-- C8 witness: a lone zero-amount destination fails with `invalidAmount`
(the spec's Scenario D). -/
theorem c8_witness :
    ParseOutputsAndChangeDestination addrA [⟨"P", 0, false⟩] = .error .invalidAmount :=
  (c8_invalid_amount addrA [⟨"P", 0, false⟩]
      ⟨⟨"P", 0, false⟩, by decide, by decide, by decide⟩).2
    [] ⟨"P", 0, false⟩ [] rfl (by decide) (by decide) (by simp)

/-- C5 (amended): when some destination is marked send-max with a *nonempty*
address and explicit change destinations are supplied, the authoring call
never returns a transaction, and whenever parsing succeeds the error is
exactly the conflicting-change error.  (The unamended claim fails when the
send-max destination's address is empty: no max-amount recipient is recorded
and the call can succeed.) -/
theorem c5_conflicting_change (addrScript : String → Option (List Nat))
    (nextInternalAddress : Option String) (rand : List Nat) (inputs : List TxIn)
    (destinations changeDestinations : List TransactionDestination)
    (d : TransactionDestination) (hd : d ∈ destinations) (hsm : d.SendMax = true)
    (haddr : d.Address ≠ "") (hcds : changeDestinations ≠ []) :
    (∀ tx, constructCustomTransaction addrScript nextInternalAddress rand inputs destinations
      changeDestinations ≠ .ok tx) ∧
    (∀ outs ts maxA,
      ParseOutputsAndChangeDestination addrScript destinations = .ok (outs, ts, maxA) →
      constructCustomTransaction addrScript nextInternalAddress rand inputs destinations
        changeDestinations = .error .conflictingChange) := by
  have hpart2 : ∀ outs ts maxA,
      ParseOutputsAndChangeDestination addrScript destinations = .ok (outs, ts, maxA) →
      constructCustomTransaction addrScript nextInternalAddress rand inputs destinations
        changeDestinations = .error .conflictingChange := by
    intro outs ts maxA hp
    have hm : maxA ≠ "" := parseOutputsLoop_maxAddr addrScript destinations [] 0 "" outs ts maxA
      hp (Or.inl ⟨d, hd, hsm, haddr⟩)
    exact constructCustomTransaction_conflict addrScript nextInternalAddress rand inputs
      destinations changeDestinations outs ts maxA hp hm hcds
  refine ⟨?_, hpart2⟩
  intro tx hok
  cases hparse : ParseOutputsAndChangeDestination addrScript destinations with
  | error e =>
    rw [constructCustomTransaction_parse_error addrScript nextInternalAddress rand inputs
      destinations changeDestinations e hparse] at hok
    exact absurd hok (by simp)
  | ok r =>
    obtain ⟨outs, ts, maxA⟩ := r
    rw [hpart2 outs ts maxA hparse] at hok
    exact absurd hok (by simp)

/-- C5 counterexample: a send-max destination with an empty address together
with a nonempty explicit change list is *not* rejected: the call succeeds and
returns a transaction — contradicting the claim. -/
theorem c5_counterexample :
    constructCustomTransaction addrA (some "I") [0] [⟨100000000, []⟩]
      [⟨"", 0, true⟩] [⟨"C", 1000, false⟩] =
      .ok ⟨100000000, 217, [⟨100000000, []⟩], [⟨1000, script25⟩]⟩ := by
  decide

/-- C5 witness: a send-max destination with a nonempty address plus an
explicit change destination fails with the conflicting-change error. -/
theorem c5_witness :
    constructCustomTransaction addrA (some "I") [0] [⟨100000000, []⟩]
      [⟨"P", 0, true⟩] [⟨"C", 1000, false⟩] = .error .conflictingChange :=
  (c5_conflicting_change addrA (some "I") [0] [⟨100000000, []⟩]
      [⟨"P", 0, true⟩] [⟨"C", 1000, false⟩] ⟨"P", 0, true⟩
      (by decide) (by decide) (by decide) (by decide)).2
    [] 0 "P" (by decide)

/-- C2 (confirmed): when the computed change amount is zero or dust for the
active change-script size and fee rate, the authoring call succeeds with no
change output (the outputs are exactly the parsed payment outputs), the
estimated signed size is re-computed without the change slot, and the fee
actually paid — total input minus the sum of the output values — equals
total input minus total send. -/
theorem c2_dust_suppression (addrScript : String → Option (List Nat))
    (nextInternalAddress : Option String) (rand : List Nat) (inputs : List TxIn)
    (destinations changeDestinations : List TransactionDestination)
    (outs : List TxOut) (ts : Int) (maxA0 maxAddr : String) (css : Nat)
    (hp : ParseOutputsAndChangeDestination addrScript destinations = .ok (outs, ts, maxA0))
    (hc : ¬(maxA0 ≠ "" ∧ changeDestinations ≠ []))
    (hr : resolveMaxAmountAddress maxA0 changeDestinations nextInternalAddress = .ok maxAddr)
    (hs : resolveChangeScriptSize addrScript maxAddr changeDestinations = .ok css)
    (hneg : ¬(changeAmountOf inputs outs ts css < 0))
    (hdust : changeAmountOf inputs outs ts css = 0 ∨
      IsDustAmount (changeAmountOf inputs outs ts css) css DefaultRelayFeePerKb = true) :
    constructCustomTransaction addrScript nextInternalAddress rand inputs destinations
      changeDestinations =
      .ok ⟨totalInputOf inputs, signedSizeOf inputs outs 0, inputs, outs⟩ ∧
    totalInputOf inputs - (outs.map TxOut.Value).sum = totalInputOf inputs - ts := by
  have hsum := ParseOutputsAndChangeDestination_sum addrScript destinations outs ts maxA0 hp
  refine ⟨?_, by rw [hsum]⟩
  rw [constructCustomTransaction_stages addrScript nextInternalAddress rand inputs destinations
    changeDestinations outs ts maxA0 maxAddr css hp hc hr hs]
  unfold finishTx
  rw [if_neg hneg]
  have hcond : ¬(changeAmountOf inputs outs ts css ≠ 0 ∧
      ¬(IsDustAmount (changeAmountOf inputs outs ts css) css DefaultRelayFeePerKb = true)) := by
    rcases hdust with h | h
    · simp [h]
    · simp [h]
  rw [if_neg hcond]

/-- C2 witness: one 52530-atom input paying 50000 atoms leaves change of
exactly zero; the result has only the payment output, the no-change size 217,
and an actual fee of 2530 = 52530 − 50000. -/
theorem c2_witness :
    constructCustomTransaction addrA (some "C") [] [⟨52530, []⟩]
      [⟨"P", 50000, false⟩] [] =
      .ok ⟨52530, 217, [⟨52530, []⟩], [⟨50000, script25⟩]⟩ ∧
    (52530 : Int) - (([⟨(50000 : Int), script25⟩] : List TxOut).map TxOut.Value).sum =
      52530 - 50000 := by
  have h := c2_dust_suppression addrA (some "C") [] [⟨52530, []⟩]
    [⟨"P", 50000, false⟩] [] [⟨50000, script25⟩] 50000 "" "C" 25
    (by decide) (by simp) (by decide) (by decide) (by decide) (by decide)
  exact ⟨h.1, by decide⟩

/-- C3 (confirmed): when the change amount computed from the with-change
estimate is negative, the call fails with `insufficientFunds` carrying the
shortfall `fee + totalSend − totalInput`, and no transaction is returned;
conversely any successful call has nonnegative implied change. -/
theorem c3_insufficient_funds (addrScript : String → Option (List Nat))
    (nextInternalAddress : Option String) (rand : List Nat) (inputs : List TxIn)
    (destinations changeDestinations : List TransactionDestination)
    (outs : List TxOut) (ts : Int) (maxA0 maxAddr : String) (css : Nat)
    (hp : ParseOutputsAndChangeDestination addrScript destinations = .ok (outs, ts, maxA0))
    (hc : ¬(maxA0 ≠ "" ∧ changeDestinations ≠ []))
    (hr : resolveMaxAmountAddress maxA0 changeDestinations nextInternalAddress = .ok maxAddr)
    (hs : resolveChangeScriptSize addrScript maxAddr changeDestinations = .ok css) :
    (changeAmountOf inputs outs ts css < 0 →
      constructCustomTransaction addrScript nextInternalAddress rand inputs destinations
        changeDestinations =
        .error (.insufficientFunds (requiredFeeOf inputs outs css + ts - totalInputOf inputs))) ∧
    (∀ tx, constructCustomTransaction addrScript nextInternalAddress rand inputs destinations
      changeDestinations = .ok tx → 0 ≤ changeAmountOf inputs outs ts css) := by
  have hstage := constructCustomTransaction_stages addrScript nextInternalAddress rand inputs
    destinations changeDestinations outs ts maxA0 maxAddr css hp hc hr hs
  have hshort : 0 - changeAmountOf inputs outs ts css =
      requiredFeeOf inputs outs css + ts - totalInputOf inputs := by
    simp only [changeAmountOf]
    ring
  constructor
  · intro hlt
    rw [hstage]
    unfold finishTx
    rw [if_pos hlt, hshort]
  · intro tx htx
    by_contra hneg
    push_neg at hneg
    rw [hstage] at htx
    unfold finishTx at htx
    rw [if_pos hneg] at htx
    exact absurd htx (by simp)

/-- C3 witness: a 1000-atom input cannot pay a 900-atom destination plus the
2530-atom fee; the call fails with `insufficientFunds 2430`, and the theorem's
shortfall expression evaluates to that amount. -/
theorem c3_witness :
    constructCustomTransaction addrA (some "C") [] [⟨1000, []⟩] [⟨"P", 900, false⟩] [] =
      .error (.insufficientFunds 2430) := by
  have h := (c3_insufficient_funds addrA (some "C") [] [⟨1000, []⟩] [⟨"P", 900, false⟩] []
    [⟨900, script25⟩] 900 "" "C" 25 (by decide) (by simp) (by decide) (by decide)).1 (by decide)
  rw [h]
  decide

/-- C6 (confirmed): in multi-destination explicit-change mode with a
materializable (nonnegative, nonzero, non-dust) change amount, if any
individual explicit change destination's locking script exceeds the maximum
pushable stack-element size, the call fails with `scriptTooLarge` — the code
compares the *summed* change script size against the bound, and the sum
dominates each individual size. -/
theorem c6_script_too_large (addrScript : String → Option (List Nat))
    (nextInternalAddress : Option String) (rand : List Nat) (inputs : List TxIn)
    (destinations changeDestinations : List TransactionDestination)
    (outs : List TxOut) (ts : Int) (css : Nat)
    (cd : TransactionDestination) (script : List Nat)
    (hp : ParseOutputsAndChangeDestination addrScript destinations = .ok (outs, ts, ""))
    (hcds : changeDestinations ≠ [])
    (hs : calculateMultipleChangeScriptSize addrScript changeDestinations = .ok css)
    (hcd : cd ∈ changeDestinations) (hscript : addrScript cd.Address = some script)
    (hserr : MaxScriptElementSize < script.length)
    (hneg : ¬(changeAmountOf inputs outs ts css < 0))
    (hnz : changeAmountOf inputs outs ts css ≠ 0)
    (hnd : ¬(IsDustAmount (changeAmountOf inputs outs ts css) css DefaultRelayFeePerKb = true)) :
    constructCustomTransaction addrScript nextInternalAddress rand inputs destinations
      changeDestinations = .error .scriptTooLarge := by
  rw [constructCustomTransaction_stages addrScript nextInternalAddress rand inputs destinations
    changeDestinations outs ts "" "" css hp (by simp)
    (resolveMaxAmountAddress_multi changeDestinations nextInternalAddress hcds)
    (by rw [resolveChangeScriptSize_multi]; exact hs)]
  unfold finishTx
  rw [if_neg hneg, if_pos ⟨hnz, hnd⟩]
  have hbig : MaxScriptElementSize < css :=
    lt_of_lt_of_le hserr
      (calculateMultipleChangeScriptSize_le addrScript changeDestinations css hs cd hcd
        script hscript)
  rw [if_pos hbig]

/-- A one-element change destination list sums to that destination's script
size. -/
theorem calculateMultipleChangeScriptSize_singleton (addrScript : String → Option (List Nat))
    (cd : TransactionDestination) (s : Nat)
    (h : calculateChangeScriptSize addrScript cd.Address = .ok s) :
    calculateMultipleChangeScriptSize addrScript [cd] = .ok s := by
  unfold calculateMultipleChangeScriptSize
  rw [h]
  simp [calculateMultipleChangeScriptSize]

/-- C6 witness: a change destination whose script is 2049 bytes (above the
2048-byte bound) makes the call fail with `scriptTooLarge`. -/
theorem c6_witness :
    constructCustomTransaction addrA (some "I") [0] [⟨100000000, []⟩]
      [⟨"P", 50000000, false⟩] [⟨"HUGE", 5, false⟩] = .error .scriptTooLarge := by
  have hsize : signedSizeOf [⟨100000000, []⟩] [⟨50000000, script25⟩] 2049 = 2279 := by
    simp [signedSizeOf, EstimateSerializeSize, inputScriptSizesOf, EstimateInputSize,
      EstimateOutputSize, varIntSerializeSize, sumOutputSerializeSizes, txOutSerializeSize,
      script25, RedeemP2PKHSigScriptSize]
  have hfee : requiredFeeOf [⟨100000000, []⟩] [⟨50000000, script25⟩] 2049 = 22790 := by
    rw [requiredFeeOf, hsize, FeeForSerializeSize_default_eq 2279 (by norm_num)]
    norm_num [MaxAmount]
  have hca : changeAmountOf [⟨100000000, []⟩] [⟨50000000, script25⟩] 50000000 2049 =
      49977210 := by
    simp [changeAmountOf, totalInputOf, hfee]
  have hone : calculateChangeScriptSize addrA "HUGE" = .ok 2049 := by
    unfold calculateChangeScriptSize
    rw [show addrA "HUGE" = some (List.replicate 2049 0) from rfl]
    show Except.ok ((List.replicate 2049 (0 : Nat)).length) = Except.ok 2049
    rw [List.length_replicate]
  exact c6_script_too_large addrA (some "I") [0] [⟨100000000, []⟩]
    [⟨"P", 50000000, false⟩] [⟨"HUGE", 5, false⟩] [⟨50000000, script25⟩] 50000000 2049
    ⟨"HUGE", 5, false⟩ (List.replicate 2049 0)
    (by decide) (by simp)
    (calculateMultipleChangeScriptSize_singleton addrA ⟨"HUGE", 5, false⟩ 2049 hone)
    (by simp) rfl (by rw [List.length_replicate]; decide)
    (by rw [hca]; norm_num) (by rw [hca]; norm_num) (by rw [hca]; decide)

/-- C9 (confirmed): every successful authoring call reports `TotalInput` equal
to the sum of the supplied inputs' `ValueIn` and carries the caller-supplied
input sequence unmodified and in order. -/
theorem c9_inputs_preserved (addrScript : String → Option (List Nat))
    (nextInternalAddress : Option String) (rand : List Nat) (inputs : List TxIn)
    (destinations changeDestinations : List TransactionDestination) (tx : AuthoredTx)
    (h : constructCustomTransaction addrScript nextInternalAddress rand inputs destinations
      changeDestinations = .ok tx) :
    tx.TotalInput = (inputs.map TxIn.ValueIn).sum ∧ tx.TxIn = inputs := by
  unfold constructCustomTransaction at h
  split at h
  next e heq => exact absurd h (by simp)
  next outs ts maxA0 heq =>
    split at h
    next hconf => exact absurd h (by simp)
    next hconf =>
      split at h
      next e heq2 => exact absurd h (by simp)
      next maxAddr heq2 =>
        split at h
        next e heq3 => exact absurd h (by simp)
        next css heq3 =>
          exact finishTx_ok_fields addrScript rand inputs outs ts maxAddr
            changeDestinations css tx h

/-- C9 witness: a concrete successful call returns `TotalInput = 100000000`
and exactly the supplied single input. -/
theorem c9_witness :
    (⟨100000000, 253, [⟨100000000, []⟩],
        [⟨49997470, script25⟩, ⟨50000000, script25⟩]⟩ : AuthoredTx).TotalInput =
      (([⟨(100000000 : Int), []⟩] : List TxIn).map TxIn.ValueIn).sum ∧
    (⟨100000000, 253, [⟨100000000, []⟩],
        [⟨49997470, script25⟩, ⟨50000000, script25⟩]⟩ : AuthoredTx).TxIn =
      [⟨100000000, []⟩] :=
  c9_inputs_preserved addrA (some "C") [0] [⟨100000000, []⟩]
    [⟨"P", 50000000, false⟩] []
    ⟨100000000, 253, [⟨100000000, []⟩], [⟨49997470, script25⟩, ⟨50000000, script25⟩]⟩
    (by decide)

/-- In single-change mode (a nonempty max-amount recipient address that
decodes) with a materializable change amount, `finishTx` succeeds and appends
one change output carrying the full change amount, placed by the randomized
swap. -/
theorem finishTx_single_change (addrScript : String → Option (List Nat)) (rand : List Nat)
    (inputs : List TxIn) (outs : List TxOut) (ts : Int) (maxAddr : String)
    (cds : List TransactionDestination) (css : Nat) (script : List Nat)
    (hmax : maxAddr ≠ "") (hscript : addrScript maxAddr = some script)
    (hneg : ¬(changeAmountOf inputs outs ts css < 0))
    (hnz : changeAmountOf inputs outs ts css ≠ 0)
    (hnd : ¬(IsDustAmount (changeAmountOf inputs outs ts css) css DefaultRelayFeePerKb = true))
    (hok : ¬(MaxScriptElementSize < css)) :
    finishTx addrScript rand inputs outs ts maxAddr cds css =
      .ok ⟨totalInputOf inputs, signedSizeOf inputs outs css, inputs,
        RandomizeOutputPosition
          (outs ++ [(⟨changeAmountOf inputs outs ts css, script⟩ : TxOut)])
          ((outs ++ [(⟨changeAmountOf inputs outs ts css, script⟩ : TxOut)]).length - 1)
          (rand.headD 0)⟩ := by
  unfold finishTx
  rw [if_neg hneg, if_pos ⟨hnz, hnd⟩, if_neg hok, if_pos hmax]
  have hout : MakeTxOutput addrScript maxAddr (changeAmountOf inputs outs ts css) =
      some ⟨changeAmountOf inputs outs ts css, script⟩ := by simp [MakeTxOutput, hscript]
  simp only [addChangeOutputs, hout]
  rw [if_neg (by omega :
    ¬(changeAmountOf inputs outs ts css < 0 + changeAmountOf inputs outs ts css))]

/-- C1 (amended/corrected): for every successful authoring call, the sum of
the output values plus the fee derived from the returned
`EstimatedSignedSerializeSize` is at most `TotalInput`, with equality in
single-change mode (a materialized change output at the max-amount or
implicit change address).  The original exact-conservation claim fails: in
multi-destination explicit-change mode an underallocated change and, in the
dropped-change branch, the smaller re-estimated size both leave the derived
fee strictly below the fee actually paid. -/
theorem c1_conservation (addrScript : String → Option (List Nat))
    (nextInternalAddress : Option String) (rand : List Nat) (inputs : List TxIn)
    (destinations changeDestinations : List TransactionDestination) :
    (∀ tx, constructCustomTransaction addrScript nextInternalAddress rand inputs destinations
        changeDestinations = .ok tx →
      (tx.TxOut.map TxOut.Value).sum +
        FeeForSerializeSize DefaultRelayFeePerKb tx.EstimatedSignedSerializeSize ≤
        tx.TotalInput) ∧
    (∀ (outs : List TxOut) (ts : Int) (maxA0 maxAddr : String) (css : Nat)
      (script : List Nat) (tx : AuthoredTx),
      ParseOutputsAndChangeDestination addrScript destinations = .ok (outs, ts, maxA0) →
      ¬(maxA0 ≠ "" ∧ changeDestinations ≠ []) →
      resolveMaxAmountAddress maxA0 changeDestinations nextInternalAddress = .ok maxAddr →
      maxAddr ≠ "" →
      calculateChangeScriptSize addrScript maxAddr = .ok css →
      addrScript maxAddr = some script →
      changeAmountOf inputs outs ts css ≠ 0 →
      ¬(IsDustAmount (changeAmountOf inputs outs ts css) css DefaultRelayFeePerKb = true) →
      constructCustomTransaction addrScript nextInternalAddress rand inputs destinations
        changeDestinations = .ok tx →
      (tx.TxOut.map TxOut.Value).sum +
        FeeForSerializeSize DefaultRelayFeePerKb tx.EstimatedSignedSerializeSize =
        tx.TotalInput) := by
  constructor
  · intro tx h
    unfold constructCustomTransaction at h
    split at h
    next e heq => exact absurd h (by simp)
    next outs ts maxA0 heq =>
      split at h
      next hconf => exact absurd h (by simp)
      next hconf =>
        split at h
        next e heq2 => exact absurd h (by simp)
        next maxAddr heq2 =>
          split at h
          next e heq3 => exact absurd h (by simp)
          next css heq3 =>
            exact finishTx_conservation_le addrScript rand inputs outs ts maxAddr
              changeDestinations css tx
              (ParseOutputsAndChangeDestination_sum addrScript destinations outs ts maxA0 heq) h
  · intro outs ts maxA0 maxAddr css script tx hp hc hr hmax hcss hscript hnz hnd htx
    have hsum := ParseOutputsAndChangeDestination_sum addrScript destinations outs ts maxA0 hp
    rw [constructCustomTransaction_stages addrScript nextInternalAddress rand inputs
      destinations changeDestinations outs ts maxA0 maxAddr css hp hc hr
      (by rw [resolveChangeScriptSize_single addrScript maxAddr changeDestinations hmax]
          exact hcss)] at htx
    by_cases hneg : changeAmountOf inputs outs ts css < 0
    · unfold finishTx at htx
      rw [if_pos hneg] at htx
      exact absurd htx (by simp)
    by_cases hbig : MaxScriptElementSize < css
    · unfold finishTx at htx
      rw [if_neg hneg, if_pos ⟨hnz, hnd⟩, if_pos hbig] at htx
      exact absurd htx (by simp)
    rw [finishTx_single_change addrScript rand inputs outs ts maxAddr changeDestinations css
      script hmax hscript hneg hnz hnd hbig] at htx
    injection htx with htx2
    subst htx2
    have hidx : ((outs ++ [(⟨changeAmountOf inputs outs ts css, script⟩ : TxOut)]).length - 1) <
        (outs ++ [(⟨changeAmountOf inputs outs ts css, script⟩ : TxOut)]).length := by
      simp
    have hperm := RandomizeOutputPosition_perm
      (outs ++ [⟨changeAmountOf inputs outs ts css, script⟩])
      ((outs ++ [(⟨changeAmountOf inputs outs ts css, script⟩ : TxOut)]).length - 1)
      (rand.headD 0) hidx
    have hsum2 := (hperm.map TxOut.Value).sum_eq
    simp only [List.map_append, List.map_cons, List.map_nil, List.sum_append,
      List.sum_cons, List.sum_nil] at hsum2
    simp only []
    rw [hsum2, hsum]
    have hfee : requiredFeeOf inputs outs css =
        FeeForSerializeSize DefaultRelayFeePerKb (signedSizeOf inputs outs css) := rfl
    simp only [changeAmountOf]
    omega

/-- C1 counterexample: a multi-destination explicit-change call that
underallocates change succeeds, yet the sum of its output values plus the fee
derived from the returned size is 50003530, not the 100000000 total input —
refuting exact conservation. -/
theorem c1_counterexample :
    constructCustomTransaction addrA (some "I") [0] [⟨100000000, []⟩]
      [⟨"P", 50000000, false⟩] [⟨"C", 1000, false⟩] =
      .ok ⟨100000000, 253, [⟨100000000, []⟩],
        [⟨1000, script25⟩, ⟨50000000, script25⟩]⟩ ∧
    (([⟨(1000 : Int), script25⟩, ⟨50000000, script25⟩] : List TxOut).map TxOut.Value).sum +
      FeeForSerializeSize DefaultRelayFeePerKb 253 ≠ (100000000 : Int) := by
  constructor
  · decide
  · decide

/-- C1 witness: in a single-change call the inequality instance produced by
the theorem holds (and is in fact an equality: 99997470 + 2530 = 100000000). -/
theorem c1_witness :
    (([⟨(49997470 : Int), script25⟩, ⟨50000000, script25⟩] : List TxOut).map TxOut.Value).sum +
      FeeForSerializeSize DefaultRelayFeePerKb 253 ≤ (100000000 : Int) := by
  have h := (c1_conservation addrA (some "C") [0] [⟨100000000, []⟩]
    [⟨"P", 50000000, false⟩] []).1
    ⟨100000000, 253, [⟨100000000, []⟩], [⟨49997470, script25⟩, ⟨50000000, script25⟩]⟩
    (by decide)
  simpa using h

/-- C7 (confirmed): in multi-destination explicit-change mode with a
materializable change amount, the change outputs carry exactly the stated
amounts; when their sum is at most the available change the call succeeds,
its outputs are a permutation of the payment outputs plus the change outputs,
and the fee actually paid is the estimated fee plus the unallocated
difference; the over-allocation error is raised exactly when the stated sum
strictly exceeds the available change. -/
theorem c7_underallocated_change (addrScript : String → Option (List Nat))
    (nextInternalAddress : Option String) (rand : List Nat) (inputs : List TxIn)
    (destinations changeDestinations : List TransactionDestination)
    (outs : List TxOut) (ts : Int) (css : Nat)
    (hp : ParseOutputsAndChangeDestination addrScript destinations = .ok (outs, ts, ""))
    (hcds : changeDestinations ≠ [])
    (hcss : calculateMultipleChangeScriptSize addrScript changeDestinations = .ok css)
    (hdec : ∀ cd ∈ changeDestinations, addrScript cd.Address ≠ none)
    (hneg : ¬(changeAmountOf inputs outs ts css < 0))
    (hnz : changeAmountOf inputs outs ts css ≠ 0)
    (hnd : ¬(IsDustAmount (changeAmountOf inputs outs ts css) css DefaultRelayFeePerKb = true))
    (hok : ¬(MaxScriptElementSize < css)) :
    ((changeOutputsOf addrScript changeDestinations).map TxOut.Value =
      changeDestinations.map TransactionDestination.AtomAmount) ∧
    (((changeOutputsOf addrScript changeDestinations).map TxOut.Value).sum ≤
        changeAmountOf inputs outs ts css →
      (∀ e, constructCustomTransaction addrScript nextInternalAddress rand inputs destinations
        changeDestinations ≠ .error e) ∧
      (∀ tx, constructCustomTransaction addrScript nextInternalAddress rand inputs destinations
          changeDestinations = .ok tx →
        List.Perm tx.TxOut (outs ++ changeOutputsOf addrScript changeDestinations) ∧
        tx.TotalInput - (tx.TxOut.map TxOut.Value).sum =
          requiredFeeOf inputs outs css + (changeAmountOf inputs outs ts css -
            ((changeOutputsOf addrScript changeDestinations).map TxOut.Value).sum))) ∧
    (changeAmountOf inputs outs ts css <
        ((changeOutputsOf addrScript changeDestinations).map TxOut.Value).sum →
      constructCustomTransaction addrScript nextInternalAddress rand inputs destinations
        changeDestinations =
        .error (.changeAllocationExceedsAvailable
          (((changeOutputsOf addrScript changeDestinations).map TxOut.Value).sum)
          (changeAmountOf inputs outs ts css))) := by
  have hsum := ParseOutputsAndChangeDestination_sum addrScript destinations outs ts "" hp
  obtain ⟨outs2, rand2, hrun, hperm⟩ :=
    addChangeOutputs_spec addrScript changeDestinations outs 0 rand hdec
  rw [constructCustomTransaction_stages addrScript nextInternalAddress rand inputs
    destinations changeDestinations outs ts "" "" css hp (by simp)
    (resolveMaxAmountAddress_multi changeDestinations nextInternalAddress hcds)
    (by rw [resolveChangeScriptSize_multi]; exact hcss)]
  unfold finishTx
  rw [if_neg hneg, if_pos ⟨hnz, hnd⟩, if_neg hok,
    if_neg (by simp : ¬(("" : String) ≠ ""))]
  simp only [hrun]
  refine ⟨changeOutputsOf_values addrScript changeDestinations hdec, ?_, ?_⟩
  · intro hle
    rw [if_neg (by omega : ¬(changeAmountOf inputs outs ts css <
      0 + ((changeOutputsOf addrScript changeDestinations).map TxOut.Value).sum))]
    refine ⟨by simp, ?_⟩
    intro tx htx
    injection htx with htx2
    subst htx2
    refine ⟨hperm, ?_⟩
    have hsum2 := (hperm.map TxOut.Value).sum_eq
    simp only [List.map_append, List.sum_append] at hsum2
    simp only []
    rw [hsum2, hsum]
    simp only [changeAmountOf]
    ring
  · intro hgt
    rw [if_pos (by omega : changeAmountOf inputs outs ts css <
      0 + ((changeOutputsOf addrScript changeDestinations).map TxOut.Value).sum)]
    norm_num

/-- C7 witness: with change amount 49997470 and a single explicit change
destination stating 1000 atoms, the call succeeds; its outputs are a
permutation of the payment output plus the 1000-atom change output, and the
fee actually paid exceeds the estimated fee by the 49996470 unallocated
atoms. -/
theorem c7_witness :
    List.Perm
      ([⟨1000, script25⟩, ⟨50000000, script25⟩] : List TxOut)
      ([⟨50000000, script25⟩] ++ changeOutputsOf addrA [⟨"C", 1000, false⟩]) ∧
    (⟨100000000, 253, [⟨100000000, []⟩],
        [⟨1000, script25⟩, ⟨50000000, script25⟩]⟩ : AuthoredTx).TotalInput -
      ((([⟨1000, script25⟩, ⟨50000000, script25⟩] : List TxOut)).map TxOut.Value).sum =
      requiredFeeOf [⟨100000000, []⟩] [⟨50000000, script25⟩] 25 +
        (changeAmountOf [⟨100000000, []⟩] [⟨50000000, script25⟩] 50000000 25 -
          ((changeOutputsOf addrA [⟨"C", 1000, false⟩]).map TxOut.Value).sum) :=
  ((c7_underallocated_change addrA (some "I") [0] [⟨100000000, []⟩]
      [⟨"P", 50000000, false⟩] [⟨"C", 1000, false⟩] [⟨50000000, script25⟩] 50000000 25
      (by decide) (by simp) (by decide) (by decide) (by decide) (by decide) (by decide)
      (by decide)).2.1 (by decide)).2
    ⟨100000000, 253, [⟨100000000, []⟩], [⟨1000, script25⟩, ⟨50000000, script25⟩]⟩
    (by decide)

/-- A successful prefix of the change-materialization loop composes: running
the loop on an appended destination list continues from the prefix's
result. -/
theorem addChangeOutputs_append_eq (addrScript : String → Option (List Nat)) :
    ∀ (cds1 cds2 : List TransactionDestination) (outs : List TxOut) (tca : Int)
      (rand : List Nat) (outs1 : List TxOut) (tca1 : Int) (rand1 : List Nat),
      addChangeOutputs addrScript cds1 outs tca rand = .ok (outs1, tca1, rand1) →
      addChangeOutputs addrScript (cds1 ++ cds2) outs tca rand =
        addChangeOutputs addrScript cds2 outs1 tca1 rand1 := by
  intro cds1
  induction cds1 with
  | nil =>
    intro cds2 outs tca rand outs1 tca1 rand1 h
    simp only [addChangeOutputs, Except.ok.injEq, Prod.mk.injEq] at h
    obtain ⟨h1, h2, h3⟩ := h
    subst h1 h2 h3
    simp
  | cons cd rest ih =>
    intro cds2 outs tca rand outs1 tca1 rand1 h
    revert h
    cases hm : MakeTxOutput addrScript cd.Address cd.AtomAmount with
    | none => intro h; simp [addChangeOutputs, hm] at h
    | some c =>
      intro h
      simp only [addChangeOutputs, hm] at h
      simp only [List.cons_append, addChangeOutputs, hm]
      exact ih cds2 _ _ _ outs1 tca1 rand1 h

/-- In multi-change mode, when the loop's prefix over all but the last change
destination has run (leaving exactly the randomness for the last output) and
the last change address decodes, `finishTx` succeeds and the last change
output is appended and placed by the randomized swap with the remaining
randomness. -/
theorem finishTx_multi_last_change (addrScript : String → Option (List Nat))
    (randF : List Nat) (r : Nat) (inputs : List TxIn) (outs outs1 : List TxOut)
    (ts tc1 : Int) (front : List TransactionDestination) (lastDest : TransactionDestination)
    (css : Nat) (script : List Nat)
    (hscript : addrScript lastDest.Address = some script)
    (hfront : addChangeOutputs addrScript front outs 0 (randF ++ [r]) = .ok (outs1, tc1, [r]))
    (hneg : ¬(changeAmountOf inputs outs ts css < 0))
    (hnz : changeAmountOf inputs outs ts css ≠ 0)
    (hnd : ¬(IsDustAmount (changeAmountOf inputs outs ts css) css DefaultRelayFeePerKb = true))
    (hok : ¬(MaxScriptElementSize < css))
    (halloc : ¬(changeAmountOf inputs outs ts css < tc1 + lastDest.AtomAmount)) :
    finishTx addrScript (randF ++ [r]) inputs outs ts "" (front ++ [lastDest]) css =
      .ok ⟨totalInputOf inputs, signedSizeOf inputs outs css, inputs,
        RandomizeOutputPosition (outs1 ++ [(⟨lastDest.AtomAmount, script⟩ : TxOut)])
          ((outs1 ++ [(⟨lastDest.AtomAmount, script⟩ : TxOut)]).length - 1) r⟩ := by
  unfold finishTx
  rw [if_neg hneg, if_pos ⟨hnz, hnd⟩, if_neg hok, if_neg (by simp : ¬(("" : String) ≠ ""))]
  rw [addChangeOutputs_append_eq addrScript front [lastDest] outs 0 (randF ++ [r])
    outs1 tc1 [r] hfront]
  have hout : MakeTxOutput addrScript lastDest.Address lastDest.AtomAmount =
      some ⟨lastDest.AtomAmount, script⟩ := by simp [MakeTxOutput, hscript]
  simp only [addChangeOutputs, hout, List.headD_cons, List.tail_cons]
  rw [if_neg halloc]

/-- C10 (confirmed): for every authoring call that materializes a change
output among at least one payment output, the change output's final position
depends on the injected randomness.  In single-change mode (max-amount or
implicit change address), randomness 0 places the change output at index 0
while randomness equal to the payment-output count leaves it at the last
index, where index 0 then holds a payment output.  In multi-destination
explicit-change mode the same holds for the last explicit change destination's
output, relative to the outputs accumulated by the (deterministic, shared)
prefix of the materialization loop. -/
theorem c10_randomized_change_position (addrScript : String → Option (List Nat))
    (nextInternalAddress : Option String) (inputs : List TxIn)
    (destinations changeDestinations : List TransactionDestination)
    (outs : List TxOut) (ts : Int) (maxA0 : String)
    (hp : ParseOutputsAndChangeDestination addrScript destinations = .ok (outs, ts, maxA0))
    (hc : ¬(maxA0 ≠ "" ∧ changeDestinations ≠ [])) :
    (∀ (maxAddr : String) (css : Nat) (script : List Nat),
      resolveMaxAmountAddress maxA0 changeDestinations nextInternalAddress = .ok maxAddr →
      maxAddr ≠ "" →
      calculateChangeScriptSize addrScript maxAddr = .ok css →
      addrScript maxAddr = some script →
      ¬(changeAmountOf inputs outs ts css < 0) →
      changeAmountOf inputs outs ts css ≠ 0 →
      ¬(IsDustAmount (changeAmountOf inputs outs ts css) css DefaultRelayFeePerKb = true) →
      ¬(MaxScriptElementSize < css) →
      outs ≠ [] →
      (⟨changeAmountOf inputs outs ts css, script⟩ : TxOut) ∉ outs →
      constructCustomTransaction addrScript nextInternalAddress [0] inputs destinations
        changeDestinations =
        .ok ⟨totalInputOf inputs, signedSizeOf inputs outs css, inputs,
          RandomizeOutputPosition
            (outs ++ [(⟨changeAmountOf inputs outs ts css, script⟩ : TxOut)])
            ((outs ++ [(⟨changeAmountOf inputs outs ts css, script⟩ : TxOut)]).length - 1) 0⟩ ∧
      (RandomizeOutputPosition
          (outs ++ [(⟨changeAmountOf inputs outs ts css, script⟩ : TxOut)])
          ((outs ++ [(⟨changeAmountOf inputs outs ts css, script⟩ : TxOut)]).length - 1) 0).getD
          0 default = ⟨changeAmountOf inputs outs ts css, script⟩ ∧
      constructCustomTransaction addrScript nextInternalAddress [outs.length] inputs
        destinations changeDestinations =
        .ok ⟨totalInputOf inputs, signedSizeOf inputs outs css, inputs,
          RandomizeOutputPosition
            (outs ++ [(⟨changeAmountOf inputs outs ts css, script⟩ : TxOut)])
            ((outs ++ [(⟨changeAmountOf inputs outs ts css, script⟩ : TxOut)]).length - 1)
            outs.length⟩ ∧
      (RandomizeOutputPosition
          (outs ++ [(⟨changeAmountOf inputs outs ts css, script⟩ : TxOut)])
          ((outs ++ [(⟨changeAmountOf inputs outs ts css, script⟩ : TxOut)]).length - 1)
          outs.length).getD 0 default ≠ ⟨changeAmountOf inputs outs ts css, script⟩) ∧
    (∀ (front : List TransactionDestination) (lastDest : TransactionDestination)
      (outs1 : List TxOut) (tc1 : Int) (randF : List Nat) (css : Nat) (script : List Nat),
      maxA0 = "" →
      changeDestinations = front ++ [lastDest] →
      calculateMultipleChangeScriptSize addrScript changeDestinations = .ok css →
      addrScript lastDest.Address = some script →
      addChangeOutputs addrScript front outs 0 (randF ++ [0]) = .ok (outs1, tc1, [0]) →
      addChangeOutputs addrScript front outs 0 (randF ++ [outs1.length]) =
        .ok (outs1, tc1, [outs1.length]) →
      ¬(changeAmountOf inputs outs ts css < 0) →
      changeAmountOf inputs outs ts css ≠ 0 →
      ¬(IsDustAmount (changeAmountOf inputs outs ts css) css DefaultRelayFeePerKb = true) →
      ¬(MaxScriptElementSize < css) →
      ¬(changeAmountOf inputs outs ts css < tc1 + lastDest.AtomAmount) →
      outs1 ≠ [] →
      (⟨lastDest.AtomAmount, script⟩ : TxOut) ∉ outs1 →
      constructCustomTransaction addrScript nextInternalAddress (randF ++ [0]) inputs
        destinations changeDestinations =
        .ok ⟨totalInputOf inputs, signedSizeOf inputs outs css, inputs,
          RandomizeOutputPosition
            (outs1 ++ [(⟨lastDest.AtomAmount, script⟩ : TxOut)])
            ((outs1 ++ [(⟨lastDest.AtomAmount, script⟩ : TxOut)]).length - 1) 0⟩ ∧
      (RandomizeOutputPosition
          (outs1 ++ [(⟨lastDest.AtomAmount, script⟩ : TxOut)])
          ((outs1 ++ [(⟨lastDest.AtomAmount, script⟩ : TxOut)]).length - 1) 0).getD
          0 default = ⟨lastDest.AtomAmount, script⟩ ∧
      constructCustomTransaction addrScript nextInternalAddress (randF ++ [outs1.length])
        inputs destinations changeDestinations =
        .ok ⟨totalInputOf inputs, signedSizeOf inputs outs css, inputs,
          RandomizeOutputPosition
            (outs1 ++ [(⟨lastDest.AtomAmount, script⟩ : TxOut)])
            ((outs1 ++ [(⟨lastDest.AtomAmount, script⟩ : TxOut)]).length - 1)
            outs1.length⟩ ∧
      (RandomizeOutputPosition
          (outs1 ++ [(⟨lastDest.AtomAmount, script⟩ : TxOut)])
          ((outs1 ++ [(⟨lastDest.AtomAmount, script⟩ : TxOut)]).length - 1)
          outs1.length).getD 0 default ≠ ⟨lastDest.AtomAmount, script⟩) := by
  constructor
  · intro maxAddr css script hr hmax hcss hscript hneg hnz hnd hok houts hnotin
    have hs : resolveChangeScriptSize addrScript maxAddr changeDestinations = .ok css := by
      rw [resolveChangeScriptSize_single addrScript maxAddr changeDestinations hmax]
      exact hcss
    have hl : (outs ++ [(⟨changeAmountOf inputs outs ts css, script⟩ : TxOut)]).length - 1 =
        outs.length := by simp
    refine ⟨?_, ?_, ?_, ?_⟩
    · rw [constructCustomTransaction_stages addrScript nextInternalAddress [0] inputs
        destinations changeDestinations outs ts maxA0 maxAddr css hp hc hr hs]
      exact finishTx_single_change addrScript [0] inputs outs ts maxAddr changeDestinations
        css script hmax hscript hneg hnz hnd hok
    · rw [hl]
      exact RandomizeOutputPosition_zero_head outs _ houts
    · rw [constructCustomTransaction_stages addrScript nextInternalAddress [outs.length]
        inputs destinations changeDestinations outs ts maxA0 maxAddr css hp hc hr hs]
      exact finishTx_single_change addrScript [outs.length] inputs outs ts maxAddr
        changeDestinations css script hmax hscript hneg hnz hnd hok
    · rw [hl, RandomizeOutputPosition_id_head outs _ houts]
      intro heq
      exact hnotin (heq ▸ getD_zero_mem outs houts)
  · intro front lastDest outs1 tc1 randF css script hmaxA0 hcdseq hcss hscript hf0 hf1
      hneg hnz hnd hok halloc houts1 hnotin1
    subst hmaxA0
    subst hcdseq
    have hne : front ++ [lastDest] ≠ [] := by simp
    have hr : resolveMaxAmountAddress "" (front ++ [lastDest]) nextInternalAddress =
        .ok "" := resolveMaxAmountAddress_multi (front ++ [lastDest]) nextInternalAddress hne
    have hs : resolveChangeScriptSize addrScript "" (front ++ [lastDest]) = .ok css := by
      rw [resolveChangeScriptSize_multi]
      exact hcss
    have hl : (outs1 ++ [(⟨lastDest.AtomAmount, script⟩ : TxOut)]).length - 1 =
        outs1.length := by simp
    refine ⟨?_, ?_, ?_, ?_⟩
    · rw [constructCustomTransaction_stages addrScript nextInternalAddress (randF ++ [0])
        inputs destinations (front ++ [lastDest]) outs ts "" "" css hp hc hr hs]
      exact finishTx_multi_last_change addrScript randF 0 inputs outs outs1 ts tc1 front
        lastDest css script hscript hf0 hneg hnz hnd hok halloc
    · rw [hl]
      exact RandomizeOutputPosition_zero_head outs1 _ houts1
    · rw [constructCustomTransaction_stages addrScript nextInternalAddress
        (randF ++ [outs1.length]) inputs destinations (front ++ [lastDest]) outs ts "" ""
        css hp hc hr hs]
      exact finishTx_multi_last_change addrScript randF outs1.length inputs outs outs1 ts tc1
        front lastDest css script hscript hf1 hneg hnz hnd hok halloc
    · rw [hl, RandomizeOutputPosition_id_head outs1 _ houts1]
      intro heq
      exact hnotin1 (heq ▸ getD_zero_mem outs1 houts1)

/-- C10 witness: with identical inputs and destinations, randomness 0 yields
the change output first and randomness 1 yields it last, both in
single-change (implicit change address) mode and in multi-destination
explicit-change mode, so its position genuinely varies with the randomness
stream. -/
theorem c10_witness :
    constructCustomTransaction addrA (some "C") [0] [⟨100000000, []⟩]
      [⟨"P", 50000000, false⟩] [] =
      .ok ⟨100000000, 253, [⟨100000000, []⟩],
        [⟨49997470, script25⟩, ⟨50000000, script25⟩]⟩ ∧
    constructCustomTransaction addrA (some "C") [1] [⟨100000000, []⟩]
      [⟨"P", 50000000, false⟩] [] =
      .ok ⟨100000000, 253, [⟨100000000, []⟩],
        [⟨50000000, script25⟩, ⟨49997470, script25⟩]⟩ ∧
    ([⟨(49997470 : Int), script25⟩, ⟨50000000, script25⟩] : List TxOut).getD 0 default ≠
      ([⟨(50000000 : Int), script25⟩, ⟨49997470, script25⟩] : List TxOut).getD 0 default ∧
    constructCustomTransaction addrA (some "I") [0] [⟨100000000, []⟩]
      [⟨"P", 50000000, false⟩] [⟨"C", 1000, false⟩] =
      .ok ⟨100000000, 253, [⟨100000000, []⟩],
        [⟨1000, script25⟩, ⟨50000000, script25⟩]⟩ ∧
    constructCustomTransaction addrA (some "I") [1] [⟨100000000, []⟩]
      [⟨"P", 50000000, false⟩] [⟨"C", 1000, false⟩] =
      .ok ⟨100000000, 253, [⟨100000000, []⟩],
        [⟨50000000, script25⟩, ⟨1000, script25⟩]⟩ ∧
    ([⟨(1000 : Int), script25⟩, ⟨50000000, script25⟩] : List TxOut).getD 0 default ≠
      ([⟨(50000000 : Int), script25⟩, ⟨1000, script25⟩] : List TxOut).getD 0 default := by
  have h := (c10_randomized_change_position addrA (some "C") [⟨100000000, []⟩]
    [⟨"P", 50000000, false⟩] [] [⟨50000000, script25⟩] 50000000 ""
    (by decide) (by simp)).1 "C" 25 script25
    (by decide) (by decide) (by decide) (by decide) (by decide) (by decide) (by decide)
    (by decide) (by simp) (by decide)
  have hm := (c10_randomized_change_position addrA (some "I") [⟨100000000, []⟩]
    [⟨"P", 50000000, false⟩] [⟨"C", 1000, false⟩] [⟨50000000, script25⟩] 50000000 ""
    (by decide) (by simp)).2 [] ⟨"C", 1000, false⟩ [⟨50000000, script25⟩] 0 [] 25 script25
    rfl rfl (by decide) (by decide) (by decide) (by decide) (by decide) (by decide)
    (by decide) (by decide) (by decide) (by simp) (by decide)
  refine ⟨?_, ?_, by decide, ?_, ?_, by decide⟩
  · rw [h.1]
    decide
  · have h2 := h.2.2.1
    simp only [List.length_singleton] at h2
    rw [h2]
    decide
  · have hm1 := hm.1
    simp only [List.nil_append] at hm1
    rw [hm1]
    decide
  · have hm2 := hm.2.2.1
    simp only [List.nil_append, List.length_singleton] at hm2
    rw [hm2]
    decide

end Dcrlibwallet
